import Mathlib

/-!
# oauth-discord-trade: the code-capture / token-exchange flow

A shallow embedding of `auth.go` (and the `Config` type of `main.go`).

* Go strings are byte sequences: `GoString := List (Fin 256)`.
* Go `error` values are modelled by `GoError` (message plus the error wrapped by `%w`).
* The outside world (incoming requests, the listener, the token endpoint, the
  standard-library JSON decoder) is passed in explicitly as an environment.
-/

namespace OAuthDiscord

/-! ## Strings and errors -/

/-- One byte of a Go string. -/
abbrev Byte := Fin 256

/-- A Go `string`: an immutable sequence of bytes. -/
abbrev GoString := List Byte

/-- UTF-8 encoding of one code point, as the Go compiler stores string literals. -/
def utf8 (c : Char) : GoString :=
  let n := c.toNat
  if n < 0x80 then [Fin.ofNat n]
  else if n < 0x800 then [Fin.ofNat (0xC0 + n / 64), Fin.ofNat (0x80 + n % 64)]
  else if n < 0x10000 then
    [Fin.ofNat (0xE0 + n / 4096), Fin.ofNat (0x80 + n / 64 % 64), Fin.ofNat (0x80 + n % 64)]
  else
    [Fin.ofNat (0xF0 + n / 262144), Fin.ofNat (0x80 + n / 4096 % 64),
     Fin.ofNat (0x80 + n / 64 % 64), Fin.ofNat (0x80 + n % 64)]

/-- A Go string literal. -/
def str (s : String) : GoString := s.data.flatMap utf8

/-- The byte of an ASCII character literal such as `'&'`. -/
def byte (c : Char) : Byte := Fin.ofNat c.toNat

/-- A Go `error`. `new` is an error without a wrapped cause (`errors.New`, or `fmt.Errorf`
without `%w`); `wrap` is the result of `fmt.Errorf` with one `%w` verb: it carries the fully
formatted message and the wrapped error. -/
inductive GoError where
  | new (msg : GoString)
  | wrap (msg : GoString) (inner : GoError)
  deriving DecidableEq, Repr

/-- The `Error()` method. -/
def GoError.Error : GoError → GoString
  | .new m => m
  | .wrap m _ => m

/-- The `Unwrap()` method: the operand of `%w`, if any. -/
def GoError.Unwrap : GoError → Option GoError
  | .new _ => none
  | .wrap _ e => some e

/-- Go: `fmt.Errorf(pre + "%w", err)`. -/
def errorfW (pre : GoString) (err : GoError) : GoError := .wrap (pre ++ err.Error) err

/-- Go: `fmt.Errorf(pre + "%v", err)`: the message is formatted, nothing is wrapped. -/
def errorfV (pre : GoString) (err : GoError) : GoError := .new (pre ++ err.Error)

/-- The `%d` verb on an `int`. -/
def formatInt (n : Int) : GoString := str (toString n)

/-- Go slice expression `s[lo:hi]` on a string; `none` is the run-time panic
"slice bounds out of range". -/
def goSlice (s : GoString) (lo hi : Nat) : Option GoString :=
  if lo ≤ hi ∧ hi ≤ s.length then some ((s.drop lo).take (hi - lo)) else none

/-! ## Data model (`main.go`, `auth.go`) -/

/-- Go: `type Config struct` of `main.go`. -/
structure Config where
  ClientID : GoString
  ClientSecret : GoString
  Port : GoString
  TimeoutTime : Int
  deriving DecidableEq, Repr

/-- Go: `type ExchangeResponse struct` of `auth.go`. -/
structure ExchangeResponse where
  /-- Go field `Type` (a Lean keyword), JSON name `token_type`. -/
  TokenType : GoString
  AccessToken : GoString
  Expires : Int
  RefreshToken : GoString
  Scope : GoString
  deriving DecidableEq, Repr

/-- The zero value `var exchangeResponse ExchangeResponse`. -/
def ExchangeResponse.zero : ExchangeResponse := ⟨[], [], 0, [], []⟩

/-! ## The redirect handler and `getCode` -/

/-- The request URL of an origin-form request target (`/path?query`) as `net/http` parses
it: scheme, host, user info, opaque part and fragment are empty; `Path` is the escaped
path (it starts with `/`). -/
structure URL where
  Path : GoString
  ForceQuery : Bool
  RawQuery : GoString
  deriving DecidableEq, Repr

/-- `(*url.URL).String` for such a URL: the escaped path, then `?` and the raw query when
the query is non-empty or forced. -/
def URL.String (u : URL) : GoString :=
  u.Path ++ (if u.ForceQuery ∨ u.RawQuery ≠ [] then byte '?' :: u.RawQuery else [])

/-- An incoming HTTP request; the handler only reads its URL. -/
structure Request where
  URL : URL
  deriving DecidableEq, Repr

/-- What one invocation of the handler does, in program order. -/
inductive HandlerStep where
  | send (code : GoString)
  | write (body : GoString)
  | panicked
  deriving DecidableEq, Repr

/-- The literal the handler compares the request URL against. -/
def faviconLiteral : GoString := str "/favicon.io"

/-- The text written to the browser after the code has been sent. -/
def confirmation : GoString := str "Code received, you can now close this window."

/-- The function registered with `mux.HandleFunc("/", ...)` in `getCode`:
```go
if r.URL.String() != "/favicon.io" {
    code := r.URL.String()[7:37]
    exchangeCode <- code
    fmt.Fprint(w, "Code received, you can now close this window.")
}
```
-/
def handler (r : Request) : List HandlerStep :=
  if r.URL.String ≠ faviconLiteral then
    match goSlice r.URL.String 7 37 with
    | none => [.panicked]
    | some code => [.send code, .write confirmation]
  else []

/-- The value an invocation puts on the `exchangeCode` channel, if it gets that far. -/
def sentCode : List HandlerStep → Option GoString
  | [] => none
  | .send c :: _ => some c
  | .panicked :: _ => none
  | .write _ :: rest => sentCode rest

/-- `http.ErrServerClosed`. -/
def ErrServerClosed : GoError := .new (str "http: Server closed")

/-- What ends the wait of `getCode` when no handler delivers a code: `ListenAndServe`
returns (always with a non-nil error), or the timer fires. -/
inductive WaitEnd where
  | listenReturned (err : GoError)
  | timerFired
  deriving DecidableEq, Repr

/-- The environment of one `getCode` call: the requests served while the `select` is
waiting (in the order their handlers run), what ends the wait otherwise, and the result of
`server.Shutdown`. -/
structure CaptureEnv where
  requests : List Request
  waitEnd : WaitEnd
  shutdownErr : Option GoError
  deriving DecidableEq, Repr

/-- The effects of `getCode` that the outside can observe, in order. -/
inductive Effect where
  | listenAndServe (addr : GoString)
  | handle (r : Request) (steps : List HandlerStep)
  | shutdown (deadlineSeconds : Nat)
  deriving DecidableEq, Repr

/-- Go: `Addr: ":" + config.Port` of the `http.Server` literal. -/
def serverAddr (config : Config) : GoString := str ":" ++ config.Port

/-- Go: `"http://localhost:"+config.Port`, the `redirect_uri` of `getAuth`. -/
def redirectURI (config : Config) : GoString := str "http://localhost:" ++ config.Port

/-- The first code a handler invocation sends, with the requests handled up to and
including the sender. -/
def firstDelivery : List Request → Option GoString × List Effect
  | [] => (none, [])
  | r :: rest =>
    match sentCode (handler r) with
    | some c => (some c, [.handle r (handler r)])
    | none => ((firstDelivery rest).1, .handle r (handler r) :: (firstDelivery rest).2)

/-- The `select` of `getCode` once the race is decided:
```go
select {
case exchangeCode := <-exchangeCode:
    if err := server.Shutdown(ctx); err != nil {
        return "", fmt.Errorf("failed to shutdown server: %w", err)
    }
    return exchangeCode, nil
case err := <-shutdownCh:
    return "", fmt.Errorf("server shutdown unexpectedly: %w", err)
case <-time.After(...):
    server.Shutdown(ctx)
    return "", fmt.Errorf("timed out waiting for exchange code")
}
```
The listener goroutine sends on `shutdownCh` only when
`err != nil && err != http.ErrServerClosed`; otherwise nothing wakes the `select` before
the timer does. -/
def selectBody (env : CaptureEnv) (delivered : Option GoString) :
    (GoString × Option GoError) × List Effect :=
  match delivered with
  | some exchangeCode =>
    match env.shutdownErr with
    | some err => (([], some (errorfW (str "failed to shutdown server: ") err)), [.shutdown 5])
    | none => ((exchangeCode, none), [.shutdown 5])
  | none =>
    match env.waitEnd with
    | .listenReturned err =>
      if err ≠ ErrServerClosed then
        (([], some (errorfW (str "server shutdown unexpectedly: ") err)), [])
      else
        (([], some (.new (str "timed out waiting for exchange code"))), [.shutdown 5])
    | .timerFired =>
      (([], some (.new (str "timed out waiting for exchange code"))), [.shutdown 5])

/-- Go: `func getCode(config Config) (string, error)`, with the trace of its effects. -/
def getCodeTrace (config : Config) (env : CaptureEnv) :
    (GoString × Option GoError) × List Effect :=
  let d := firstDelivery env.requests
  let s := selectBody env d.1
  (s.1, .listenAndServe (serverAddr config) :: d.2 ++ s.2)

/-- Go: `func getCode(config Config) (string, error)`. -/
def getCode (config : Config) (env : CaptureEnv) : GoString × Option GoError :=
  (getCodeTrace config env).1

/-! ## `net/url`: form encoding and decoding -/

/-- Go's `<` on strings: bytewise lexicographic order. -/
def ltBytes : GoString → GoString → Bool
  | [], [] => false
  | [], _ :: _ => true
  | _ :: _, [] => false
  | a :: s, b :: t => if a < b then true else if b < a then false else ltBytes s t

/-- Go: `url.Values`, a `map[string][]string`. The entries are kept in increasing key
order, which is the order `Encode` visits them in (`slices.Sort(keys)`). -/
abbrev Values := List (GoString × List GoString)

/-- Go: `func (v Values) Set(key, value string)`: `v[key] = []string{value}`. -/
def Values.Set : Values → GoString → GoString → Values
  | [], key, value => [(key, [value])]
  | (k, vs) :: rest, key, value =>
    if key = k then (k, [value]) :: rest
    else if ltBytes key k then (key, [value]) :: (k, vs) :: rest
    else (k, vs) :: Values.Set rest key value

/-- Go: `m[key] = append(m[key], value)`. -/
def Values.Add : Values → GoString → GoString → Values
  | [], key, value => [(key, [value])]
  | (k, vs) :: rest, key, value =>
    if key = k then (k, vs ++ [value]) :: rest
    else if ltBytes key k then (key, [value]) :: (k, vs) :: rest
    else (k, vs) :: Values.Add rest key value

/-- Go: `v[key]`, `nil` when absent. -/
def Values.lookup : Values → GoString → List GoString
  | [], _ => []
  | (k, vs) :: rest, key => if key = k then vs else Values.lookup rest key

/-- Go: `func (v Values) Get(key string) string`: the first value, or `""`. -/
def Values.Get (v : Values) (key : GoString) : GoString :=
  match Values.lookup v key with
  | [] => []
  | x :: _ => x

/-- ASCII letters and digits. -/
def isAlnum (c : Byte) : Bool :=
  (97 ≤ c.val && c.val ≤ 122) || (65 ≤ c.val && c.val ≤ 90) || (48 ≤ c.val && c.val ≤ 57)

/-- Go: `shouldEscape(c, encodeQueryComponent)`: everything but the unreserved characters
(letters, digits, `-`, `_`, `.`, `~`) is escaped. -/
def shouldEscape (c : Byte) : Bool :=
  if isAlnum c then false
  else if c = byte '-' ∨ c = byte '_' ∨ c = byte '.' ∨ c = byte '~' then false
  else true

/-- Go: `upperhex[n]` with `upperhex = "0123456789ABCDEF"`. -/
def upperhex (n : Nat) : Byte := if n < 10 then Fin.ofNat (48 + n) else Fin.ofNat (55 + n)

/-- One byte of `escape(s, encodeQueryComponent)`. -/
def escapeByte (c : Byte) : GoString :=
  if c = byte ' ' then [byte '+']
  else if shouldEscape c then [byte '%', upperhex (c.val / 16), upperhex (c.val % 16)]
  else [c]

/-- Go: `url.QueryEscape`. -/
def QueryEscape (s : GoString) : GoString := s.flatMap escapeByte

/-- Go: `ishex`. -/
def ishex (c : Byte) : Bool :=
  (48 ≤ c.val && c.val ≤ 57) || (97 ≤ c.val && c.val ≤ 102) || (65 ≤ c.val && c.val ≤ 70)

/-- Go: `unhex`. -/
def unhex (c : Byte) : Nat :=
  if 48 ≤ c.val ∧ c.val ≤ 57 then c.val - 48
  else if 97 ≤ c.val ∧ c.val ≤ 102 then c.val - 97 + 10
  else if 65 ≤ c.val ∧ c.val ≤ 70 then c.val - 65 + 10
  else 0

/-- Go: `url.QueryUnescape`. `%XX` becomes the byte `unhex(X)<<4 | unhex(X)`, `+` a space;
a `%` not followed by two hex digits is an `EscapeError` carrying the (at most three)
offending bytes. -/
def QueryUnescape : GoString → Except GoString GoString
  | [] => .ok []
  | c :: rest =>
    if c = byte '%' then
      match rest with
      | a :: b :: rest2 =>
        if ishex a ∧ ishex b then
          match QueryUnescape rest2 with
          | .ok t => .ok (Fin.ofNat (unhex a * 16 + unhex b) :: t)
          | .error e => .error e
        else .error [c, a, b]
      | _ => .error (c :: rest)
    else
      match QueryUnescape rest with
      | .ok t => .ok ((if c = byte '+' then byte ' ' else c) :: t)
      | .error e => .error e

/-- Go: `strings.Cut(s, string(sep))`: the text before and after the first `sep`. -/
def cut (sep : Byte) : GoString → GoString × GoString × Bool
  | [] => ([], [], false)
  | c :: rest =>
    if c = sep then ([], rest, true)
    else ((c :: (cut sep rest).1), (cut sep rest).2.1, (cut sep rest).2.2)

/-- Go: `strings.Split(s, string(sep))`. -/
def splitOn (sep : Byte) : GoString → List GoString
  | [] => [[]]
  | c :: rest =>
    if c = sep then [] :: splitOn sep rest
    else
      match splitOn sep rest with
      | [] => [[c]]
      | seg :: segs => (c :: seg) :: segs

/-- The errors of `url.ParseQuery`. -/
inductive QueryError where
  | semicolon
  | escape (text : GoString)
  deriving DecidableEq, Repr

/-- One iteration of the loop of `parseQuery` on the segment `key` cut off before the
next `&`; `err` keeps the first error. -/
def parsePair (acc : Values × Option QueryError) (key : GoString) : Values × Option QueryError :=
  if byte ';' ∈ key then (acc.1, some .semicolon)
  else if key = [] then acc
  else
    match QueryUnescape (cut (byte '=') key).1 with
    | .error e => (acc.1, acc.2.or (some (.escape e)))
    | .ok k =>
      match QueryUnescape (cut (byte '=') key).2.1 with
      | .error e => (acc.1, acc.2.or (some (.escape e)))
      | .ok v => (Values.Add acc.1 k v, acc.2)

/-- Go: `url.ParseQuery`. The loop `for query != "" { key, query, _ = strings.Cut(query, "&") ... }`
visits the `&`-separated segments of the query from left to right. -/
def ParseQuery (query : GoString) : Values × Option QueryError :=
  (splitOn (byte '&') query).foldl parsePair ([], none)

/-- One `key=value` pair of `Encode`. -/
def encodePair (key value : GoString) : GoString :=
  QueryEscape key ++ byte '=' :: QueryEscape value

/-- The pairs `Encode` writes, in order: for each key (sorted), for each of its values. -/
def encodedPairs : Values → List GoString
  | [] => []
  | (k, vs) :: rest => vs.map (encodePair k) ++ encodedPairs rest

/-- Go: `func (v Values) Encode() string`: the pairs joined by `&`. -/
def Values.Encode (v : Values) : GoString :=
  ((encodedPairs v).intersperse [byte '&']).flatten

/-! ## `getAuth` -/

/-- An outgoing request as built by `http.NewRequest` and `req.Header.Set`. -/
structure HTTPRequest where
  Method : GoString
  URL : GoString
  Body : GoString
  Header : List (GoString × GoString)
  deriving DecidableEq, Repr

/-- A response of `client.Do`: the status code and the result of `io.ReadAll(resp.Body)`. -/
structure HTTPResponse where
  StatusCode : Int
  Body : Except GoError GoString

/-- The environment of one `getAuth` call: the error `http.NewRequest` reports (if any), the
outcome of `client.Do` for a client with the given timeout in seconds, and
`json.Unmarshal(body, &exchangeResponse)`, which maps the body and the struct it decodes
into to the struct afterwards and the error. -/
structure ExchangeEnv where
  newRequestErr : Option GoError
  clientDo : Nat → HTTPRequest → Except GoError HTTPResponse
  unmarshal : GoString → ExchangeResponse → ExchangeResponse × Option GoError

/-- The form fields `getAuth` sets, `params.Set(...)` five times on an empty `url.Values`. -/
def authParams (config : Config) (code : GoString) : Values :=
  let params : Values := []
  let params := Values.Set params (str "grant_type") (str "authorization_code")
  let params := Values.Set params (str "code") code
  let params := Values.Set params (str "redirect_uri") (redirectURI config)
  let params := Values.Set params (str "client_id") config.ClientID
  let params := Values.Set params (str "client_secret") config.ClientSecret
  params

/-- The request `getAuth` sends. -/
def authRequest (config : Config) (code : GoString) : HTTPRequest :=
  { Method := str "POST"
    URL := str "https://discord.com/api/oauth2/token"
    Body := Values.Encode (authParams config code)
    Header := [(str "Content-Type", str "application/x-www-form-urlencoded")] }

/-- Go: `func getAuth(config Config, code string) (ExchangeResponse, error)`. -/
def getAuth (env : ExchangeEnv) (config : Config) (code : GoString) :
    ExchangeResponse × Option GoError :=
  let exchangeResponse := ExchangeResponse.zero
  match env.newRequestErr with
  | some err => (exchangeResponse, some (errorfW (str "failed to create HTTP request: ") err))
  | none =>
    match env.clientDo 10 (authRequest config code) with
    | .error err => (exchangeResponse, some (errorfV (str "failed to send HTTP request: ") err))
    | .ok resp =>
      match resp.Body with
      | .error err =>
        (exchangeResponse, some (errorfW (str "failed to read response body: ") err))
      | .ok body =>
        if resp.StatusCode = 200 then
          match env.unmarshal body exchangeResponse with
          | (decoded, some err) =>
            (decoded, some (errorfW (str "failed to parse response: ") err))
          | (decoded, none) => (decoded, none)
        else
          (exchangeResponse,
            some (.new (str "unexpected status code: " ++ formatInt resp.StatusCode ++
              str ", response body: " ++ body)))

/-! ## `AuthenticateUser` -/

/-- The environment of a whole run. -/
structure Env where
  capture : CaptureEnv
  exchange : ExchangeEnv

/-- The calls `AuthenticateUser` makes, in order. -/
inductive Call where
  | getCode (config : Config)
  | getAuth (config : Config) (code : GoString)
  deriving DecidableEq, Repr

/-- Go: `func AuthenticateUser(config Config) (ExchangeResponse, error)`, with the calls
it makes. -/
def AuthenticateUserTrace (env : Env) (config : Config) :
    (ExchangeResponse × Option GoError) × List Call :=
  let exchangeResponse := ExchangeResponse.zero
  match getCode config env.capture with
  | (_, some err) =>
    ((exchangeResponse, some (errorfW (str "failed to get code: ") err)), [.getCode config])
  | (code, none) =>
    match getAuth env.exchange config code with
    | (r, some err) =>
      ((r, some (errorfW (str "failed to exchange code: ") err)),
        [.getCode config, .getAuth config code])
    | (r, none) => ((r, none), [.getCode config, .getAuth config code])

/-- Go: `func AuthenticateUser(config Config) (ExchangeResponse, error)`. -/
def AuthenticateUser (env : Env) (config : Config) : ExchangeResponse × Option GoError :=
  (AuthenticateUserTrace env config).1

/-! ## `encoding/json`: `json.Unmarshal` into `*ExchangeResponse`

A model of the standard-library decoder that `getAuth` calls. It follows the library: the
input must be one syntactically valid JSON value; an object is decoded member by member,
the key selecting the struct field by its `json` tag (exactly, else ignoring case); a
`null` leaves its target as it is; a value of the wrong kind leaves the field as it is,
decoding goes on and the first such error is returned. The texts of the library's errors
are not modelled: a `*json.SyntaxError` is `jsonSyntaxError`, a `*json.UnmarshalTypeError`
is `jsonTypeError`. -/

/-- A JSON value; a number keeps its literal text. -/
inductive JSON where
  | null
  | bool (b : Bool)
  | number (lit : GoString)
  | string (s : GoString)
  | array (elems : List JSON)
  | object (members : List (GoString × JSON))

/-- The double quote. -/
def quoteByte : Byte := 34

/-- The backslash. -/
def backslash : Byte := 92

/-- JSON white space: space, tab, carriage return, line feed. -/
def isSpace (c : Byte) : Bool := c.val = 32 || c.val = 9 || c.val = 13 || c.val = 10

/-- Drop leading white space. -/
def skipSpace : GoString → GoString
  | [] => []
  | c :: rest => if isSpace c then skipSpace rest else c :: rest

/-- ASCII digits. -/
def isDigit (c : Byte) : Bool := 48 ≤ c.val && c.val ≤ 57

/-- The longest prefix of digits, and what follows it. -/
def spanDigits : GoString → GoString × GoString
  | [] => ([], [])
  | c :: rest =>
    if isDigit c then (c :: (spanDigits rest).1, (spanDigits rest).2) else ([], c :: rest)

/-- The optional `-` of a number. -/
def scanSign (s : GoString) : GoString × GoString :=
  match s with
  | [] => ([], [])
  | c :: r => if c = byte '-' then ([c], r) else ([], c :: r)

/-- The integer part of a number: `0`, or a non-zero digit and more digits. -/
def scanIntPart (s : GoString) : Option (GoString × GoString) :=
  match s with
  | [] => none
  | c :: r =>
    if c = byte '0' then some ([c], r)
    else if isDigit c then some (c :: (spanDigits r).1, (spanDigits r).2)
    else none

/-- The optional fraction of a number: `.` and at least one digit. -/
def scanFraction (s : GoString) : Option (GoString × GoString) :=
  match s with
  | [] => some ([], [])
  | d :: r =>
    if d = byte '.' then
      if (spanDigits r).1 = [] then none else some (d :: (spanDigits r).1, (spanDigits r).2)
    else some ([], d :: r)

/-- The optional exponent of a number: `e` or `E`, an optional sign, at least one digit. -/
def scanExponent (s : GoString) : Option (GoString × GoString) :=
  match s with
  | [] => some ([], [])
  | e :: r =>
    if e = byte 'e' ∨ e = byte 'E' then
      let sg : GoString × GoString :=
        match r with
        | [] => ([], [])
        | p :: r2 => if p = byte '+' ∨ p = byte '-' then ([p], r2) else ([], p :: r2)
      if (spanDigits sg.2).1 = [] then none
      else some (e :: sg.1 ++ (spanDigits sg.2).1, (spanDigits sg.2).2)
    else some ([], e :: r)

/-- A JSON number literal at the head of the input: its text and the rest. -/
def scanNumber (s : GoString) : Option (GoString × GoString) :=
  match scanIntPart (scanSign s).2 with
  | none => none
  | some (ip, r1) =>
    match scanFraction r1 with
    | none => none
    | some (fp, r2) =>
      match scanExponent r2 with
      | none => none
      | some (ep, r3) => some ((scanSign s).1 ++ ip ++ fp ++ ep, r3)

/-- Four hex digits as a number (`getu4` without the leading `\u`). -/
def getu4 : GoString → Option (Nat × GoString)
  | a :: b :: c :: d :: rest =>
    if ishex a ∧ ishex b ∧ ishex c ∧ ishex d then
      some (((unhex a * 16 + unhex b) * 16 + unhex c) * 16 + unhex d, rest)
    else none
  | _ => none

/-- Go: `utf8.EncodeRune`; surrogates and values above `U+10FFFF` become `U+FFFD`. -/
def encodeRune (r : Nat) : GoString :=
  if r < 0x80 then [Fin.ofNat r]
  else if r < 0x800 then [Fin.ofNat (0xC0 + r / 64), Fin.ofNat (0x80 + r % 64)]
  else if 0x10FFFF < r ∨ (0xD800 ≤ r ∧ r < 0xE000) then [0xEF, 0xBF, 0xBD]
  else if r < 0x10000 then
    [Fin.ofNat (0xE0 + r / 4096), Fin.ofNat (0x80 + r / 64 % 64), Fin.ofNat (0x80 + r % 64)]
  else
    [Fin.ofNat (0xF0 + r / 262144), Fin.ofNat (0x80 + r / 4096 % 64),
     Fin.ofNat (0x80 + r / 64 % 64), Fin.ofNat (0x80 + r % 64)]

/-- Is the byte in the range `lo..hi`. -/
def inRange (c : Byte) (lo hi : Nat) : Bool := lo ≤ c.val && c.val ≤ hi

/-- The length of the well-formed UTF-8 sequence at the head of the input, `0` when there
is none (`utf8.DecodeRune` then reports `RuneError` with size 1). -/
def validRuneLen : GoString → Nat
  | [] => 0
  | b0 :: rest =>
    if b0.val < 0x80 then 1
    else if inRange b0 0xC2 0xDF then
      match rest with
      | b1 :: _ => if inRange b1 0x80 0xBF then 2 else 0
      | _ => 0
    else if inRange b0 0xE0 0xEF then
      match rest with
      | b1 :: b2 :: _ =>
        if inRange b1 (if b0.val = 0xE0 then 0xA0 else 0x80) (if b0.val = 0xED then 0x9F else 0xBF)
            ∧ inRange b2 0x80 0xBF then 3 else 0
      | _ => 0
    else if inRange b0 0xF0 0xF4 then
      match rest with
      | b1 :: b2 :: b3 :: _ =>
        if inRange b1 (if b0.val = 0xF0 then 0x90 else 0x80) (if b0.val = 0xF4 then 0x8F else 0xBF)
            ∧ inRange b2 0x80 0xBF ∧ inRange b3 0x80 0xBF then 4 else 0
      | _ => 0
    else 0

/-- The byte a one-letter escape stands for. -/
def simpleEscape (e : Byte) : Option Byte :=
  if e = quoteByte ∨ e = backslash ∨ e = byte '/' then some e
  else if e = byte 'b' then some 8
  else if e = byte 'f' then some 12
  else if e = byte 'n' then some 10
  else if e = byte 'r' then some 13
  else if e = byte 't' then some 9
  else none

/-- After a `\uXXXX` with value `rr`: when `rr` is a high surrogate and a `\uYYYY` with a
low surrogate follows, the rune of the pair and the input after it (`utf16.DecodeRune`). -/
def surrogatePair (rr : Nat) (s : GoString) : Option (Nat × GoString) :=
  match s with
  | b :: u :: rest =>
    if b = backslash ∧ u = byte 'u' ∧ 0xD800 ≤ rr ∧ rr < 0xDC00 then
      match getu4 rest with
      | some (rr1, rest2) =>
        if 0xDC00 ≤ rr1 ∧ rr1 < 0xE000 then
          some (0x10000 + (rr - 0xD800) * 1024 + (rr1 - 0xDC00), rest2)
        else none
      | none => none
    else none
  | _ => none

/-- Put decoded bytes in front of the rest of a string. -/
def prepend (bs : GoString) : Option (GoString × GoString) → Option (GoString × GoString)
  | none => none
  | some (t, rest) => some (bs ++ t, rest)

/-- A string literal after its opening quote: the unquoted text and the input after the
closing quote. Control characters are rejected, escapes are decoded, ill-formed UTF-8 is
replaced by `U+FFFD`. The fuel bounds the number of steps. -/
def scanString : Nat → GoString → Option (GoString × GoString)
  | 0, _ => none
  | _ + 1, [] => none
  | fuel + 1, c :: rest =>
    if c = quoteByte then some ([], rest)
    else if c.val < 0x20 then none
    else if c = backslash then
      match rest with
      | [] => none
      | e :: rest2 =>
        if e = byte 'u' then
          match getu4 rest2 with
          | none => none
          | some (rr, rest3) =>
            match surrogatePair rr rest3 with
            | some (dec, rest5) => prepend (encodeRune dec) (scanString fuel rest5)
            | none => prepend (encodeRune rr) (scanString fuel rest3)
        else
          match simpleEscape e with
          | some b => prepend [b] (scanString fuel rest2)
          | none => none
    else if c.val < 0x80 then prepend [c] (scanString fuel rest)
    else if validRuneLen (c :: rest) = 0 then
      prepend (encodeRune 0xFFFD) (scanString fuel rest)
    else
      prepend ((c :: rest).take (validRuneLen (c :: rest)))
        (scanString fuel ((c :: rest).drop (validRuneLen (c :: rest))))

/-- Remove a literal prefix. -/
def stripLiteral (lit s : GoString) : Option GoString :=
  if lit.isPrefixOf s then some (s.drop lit.length) else none

/-- What the parser reads next: one value, the elements of an array after `[`, or the
members of an object after the opening brace. -/
inductive Mode where
  | value
  | elems
  | members

/-- The JSON grammar (`checkValid` and the decoder's scan). The result is the value read
and the rest of the input. The fuel bounds the nesting. -/
def parseJSON : Nat → Mode → GoString → Option (JSON × GoString)
  | 0, _, _ => none
  | fuel + 1, .value, s =>
    match skipSpace s with
    | [] => none
    | c :: rest =>
      if c = byte '{' then
        match skipSpace rest with
        | [] => none
        | d :: rest2 =>
          if d = byte '}' then some (.object [], rest2)
          else parseJSON fuel .members (d :: rest2)
      else if c = byte '[' then
        match skipSpace rest with
        | [] => none
        | d :: rest2 =>
          if d = byte ']' then some (.array [], rest2)
          else parseJSON fuel .elems (d :: rest2)
      else if c = quoteByte then
        match scanString (rest.length + 1) rest with
        | some (t, r) => some (.string t, r)
        | none => none
      else if c = byte 't' then (stripLiteral (str "true") (c :: rest)).map (fun r => (.bool true, r))
      else if c = byte 'f' then
        (stripLiteral (str "false") (c :: rest)).map (fun r => (.bool false, r))
      else if c = byte 'n' then (stripLiteral (str "null") (c :: rest)).map (fun r => (.null, r))
      else if c = byte '-' ∨ isDigit c then
        (scanNumber (c :: rest)).map (fun p => (.number p.1, p.2))
      else none
  | fuel + 1, .elems, s =>
    match parseJSON fuel .value s with
    | none => none
    | some (v, r) =>
      match skipSpace r with
      | [] => none
      | d :: r2 =>
        if d = byte ',' then
          match parseJSON fuel .elems r2 with
          | some (.array vs, r3) => some (.array (v :: vs), r3)
          | _ => none
        else if d = byte ']' then some (.array [v], r2)
        else none
  | fuel + 1, .members, s =>
    match skipSpace s with
    | [] => none
    | q :: r0 =>
      if q = quoteByte then
        match scanString (r0.length + 1) r0 with
        | none => none
        | some (key, r1) =>
          match skipSpace r1 with
          | [] => none
          | col :: r2 =>
            if col = byte ':' then
              match parseJSON fuel .value r2 with
              | none => none
              | some (v, r3) =>
                match skipSpace r3 with
                | [] => none
                | d :: r4 =>
                  if d = byte ',' then
                    match parseJSON fuel .members r4 with
                    | some (.object kvs, r5) => some (.object ((key, v) :: kvs), r5)
                    | _ => none
                  else if d = byte '}' then some (.object [(key, v)], r4)
                  else none
            else none
      else none

/-- The whole input as one JSON value, white space allowed around it. -/
def parseDocument (data : GoString) : Option JSON :=
  match parseJSON (2 * data.length + 2) .value data with
  | none => none
  | some (j, rest) => if skipSpace rest = [] then some j else none

/-- The fields of `ExchangeResponse`. -/
inductive Field where
  | tokenType
  | accessToken
  | expires
  | refreshToken
  | scope
  deriving DecidableEq, Repr

/-- The `json` tags of the struct, in declaration order. -/
def fieldTags : List (GoString × Field) :=
  [(str "token_type", .tokenType), (str "access_token", .accessToken),
   (str "expires_in", .expires), (str "refresh_token", .refreshToken), (str "scope", .scope)]

/-- Go: `foldName`, as far as it matters for ASCII tags: ASCII letters are upper-cased, the
Kelvin sign `U+212A` folds to `K` and the long s `U+017F` to `S`; any other non-ASCII byte
stays non-ASCII and is kept. -/
def foldName : GoString → GoString
  | [] => []
  | [c] => [if 97 ≤ c.val ∧ c.val ≤ 122 then Fin.ofNat (c.val - 32) else c]
  | [c, d] =>
    if c.val = 0xC5 ∧ d.val = 0xBF then [byte 'S']
    else (if 97 ≤ c.val ∧ c.val ≤ 122 then Fin.ofNat (c.val - 32) else c) :: foldName [d]
  | c :: d :: e :: rest =>
    if c.val = 0xE2 ∧ d.val = 0x84 ∧ e.val = 0xAA then byte 'K' :: foldName rest
    else if c.val = 0xC5 ∧ d.val = 0xBF then byte 'S' :: foldName (e :: rest)
    else
      (if 97 ≤ c.val ∧ c.val ≤ 122 then Fin.ofNat (c.val - 32) else c)
        :: foldName (d :: e :: rest)

/-- The field a member key selects: an exact match of a tag first, else a match under
`foldName`. -/
def lookupField (key : GoString) : Option Field :=
  match fieldTags.find? (fun p => p.1 = key) with
  | some p => some p.2
  | none => (fieldTags.find? (fun p => foldName p.1 = foldName key)).map (fun p => p.2)

/-- The value of a non-empty string of digits. -/
def digitsValue : GoString → Option Nat
  | [] => none
  | ds => if ds.all isDigit then some (ds.foldl (fun n d => 10 * n + (d.val - 48)) 0) else none

/-- Go: `strconv.ParseInt(lit, 10, 64)` on a JSON number literal. -/
def parseInt64 (lit : GoString) : Option Int :=
  match lit with
  | [] => none
  | c :: r =>
    if c = byte '-' then
      match digitsValue r with
      | some n => if n ≤ 2 ^ 63 then some (-(n : Int)) else none
      | none => none
    else
      match digitsValue (c :: r) with
      | some n => if n < 2 ^ 63 then some (n : Int) else none
      | none => none

/-- A `*json.SyntaxError`. -/
def jsonSyntaxError : GoError := .new (str "json: syntax error")

/-- A `*json.UnmarshalTypeError`. -/
def jsonTypeError : GoError := .new (str "json: cannot unmarshal value into Go value")

/-- Store one member value into the field it selects. -/
def setField (v : ExchangeResponse) (f : Field) (j : JSON) : ExchangeResponse × Option GoError :=
  match j with
  | .null => (v, none)
  | .string s =>
    match f with
    | .tokenType => ({ v with TokenType := s }, none)
    | .accessToken => ({ v with AccessToken := s }, none)
    | .refreshToken => ({ v with RefreshToken := s }, none)
    | .scope => ({ v with Scope := s }, none)
    | .expires => (v, some jsonTypeError)
  | .number lit =>
    match f with
    | .expires =>
      match parseInt64 lit with
      | some n => ({ v with Expires := n }, none)
      | none => (v, some jsonTypeError)
    | _ => (v, some jsonTypeError)
  | _ => (v, some jsonTypeError)

/-- Decode the members of an object from left to right; unknown keys are skipped and the
first error is kept. -/
def decodeMembers (acc : ExchangeResponse × Option GoError) :
    List (GoString × JSON) → ExchangeResponse × Option GoError
  | [] => acc
  | (key, j) :: rest =>
    match lookupField key with
    | none => decodeMembers acc rest
    | some f => decodeMembers ((setField acc.1 f j).1, acc.2.or (setField acc.1 f j).2) rest

/-- Go: `json.Unmarshal(data, &v)` for `v` of type `ExchangeResponse`: the struct
afterwards and the error. -/
def jsonUnmarshal (data : GoString) (v : ExchangeResponse) : ExchangeResponse × Option GoError :=
  match parseDocument data with
  | none => (v, some jsonSyntaxError)
  | some (.object members) => decodeMembers (v, none) members
  | some .null => (v, none)
  | some _ => (v, some jsonTypeError)

/-- A token endpoint that answers every request with the given status and body; the
decoder is the standard library's. -/
def tokenEndpoint (status : Int) (body : GoString) : ExchangeEnv :=
  { newRequestErr := none
    clientDo := fun _ _ => .ok ⟨status, .ok body⟩
    unmarshal := jsonUnmarshal }

/-! ### What a body says, and bodies written out

`bodyFields` reads the five fields off the members of a JSON object without running the
decoder; `renderObject` writes a flat JSON object out as text. -/

/-- Is the value `null`. -/
def JSON.isNull : JSON → Bool
  | .null => true
  | _ => false

/-- The value an object gives a field: the value of the last member whose key selects the
field and is not `null`. -/
def memberValue (f : Field) : List (GoString × JSON) → Option JSON
  | [] => none
  | (k, j) :: rest =>
    match memberValue f rest with
    | some x => some x
    | none => if lookupField k = some f ∧ j.isNull = false then some j else none

/-- The text of a string value, else the default. -/
def stringOf (dflt : GoString) : Option JSON → GoString
  | some (.string s) => s
  | _ => dflt

/-- The integer of a number value, else the default. -/
def intOf (dflt : Int) : Option JSON → Int
  | some (.number lit) => (parseInt64 lit).getD dflt
  | _ => dflt

/-- The struct an object describes, starting from `v`: `Type` is its `token_type`,
`AccessToken` its `access_token`, `Expires` its `expires_in`, `RefreshToken` its
`refresh_token` and `Scope` its `scope`; a field the object does not give keeps the value
it has in `v`. -/
def bodyFields (v : ExchangeResponse) (ms : List (GoString × JSON)) : ExchangeResponse :=
  { TokenType := stringOf v.TokenType (memberValue .tokenType ms)
    AccessToken := stringOf v.AccessToken (memberValue .accessToken ms)
    Expires := intOf v.Expires (memberValue .expires ms)
    RefreshToken := stringOf v.RefreshToken (memberValue .refreshToken ms)
    Scope := stringOf v.Scope (memberValue .scope ms) }

/-- Can the field hold the member value: `null` always, a string for the four string
fields, an integer literal in the range of `int` for `Expires`. -/
def fits (f : Field) (j : JSON) : Bool :=
  match j with
  | .null => true
  | .string _ => f != .expires
  | .number lit => f == .expires && (parseInt64 lit).isSome
  | _ => false

/-- Do all members whose key selects a field fit that field. -/
def allFit : List (GoString × JSON) → Bool
  | [] => true
  | (k, j) :: rest =>
    (match lookupField k with
      | none => true
      | some f => fits f j) && allFit rest

/-- One byte of a string literal: the quote and the backslash as two-byte escapes, a
control character as `\u00XX`, any other byte as it is. -/
def quoteChar (c : Byte) : GoString :=
  if c = quoteByte then [backslash, quoteByte]
  else if c = backslash then [backslash, backslash]
  else if c.val < 0x20 then
    [backslash, byte 'u', byte '0', byte '0', upperhex (c.val / 16), upperhex (c.val % 16)]
  else [c]

/-- The text of a string between its quotes. -/
def quoteChars (s : GoString) : GoString := s.flatMap quoteChar

/-- A string written as a JSON string literal. -/
def renderString (s : GoString) : GoString := quoteByte :: (quoteChars s ++ [quoteByte])

/-- A natural number in decimal. -/
def decimal (n : Nat) : GoString :=
  if n = 0 then [byte '0']
  else (Nat.digits 10 n).reverse.map (fun d => (Fin.ofNat (48 + d) : Byte))

/-- An integer written as a JSON number literal. -/
def renderInt (e : Int) : GoString :=
  if e < 0 then byte '-' :: decimal e.natAbs else decimal e.natAbs

/-- The value of a member of a flat object: an integer or a string. -/
inductive Flat where
  | int (n : Int)
  | string (s : GoString)

/-- The JSON value a flat value denotes. -/
def Flat.toJSON : Flat → JSON
  | .int n => .number (renderInt n)
  | .string s => .string s

/-- A flat value written out. -/
def renderValue : Flat → GoString
  | .int n => renderInt n
  | .string s => renderString s

/-- One member written out: `"key":value`. -/
def renderMember (m : GoString × Flat) : GoString :=
  renderString m.1 ++ byte ':' :: renderValue m.2

/-- The members after the first, each led by a comma, and the closing brace. -/
def renderTail : List (GoString × Flat) → GoString
  | [] => [byte '}']
  | m :: rest => byte ',' :: (renderMember m ++ renderTail rest)

/-- A flat object written out without white space. -/
def renderObject : List (GoString × Flat) → GoString
  | [] => [byte '{', byte '}']
  | m :: rest => byte '{' :: (renderMember m ++ renderTail rest)

/-- Are all bytes of the string ASCII. -/
def isASCII (s : GoString) : Bool := s.all (fun c => c.val < 128)

/-- Are the keys and the string values of the members ASCII. -/
def flatASCII : List (GoString × Flat) → Bool
  | [] => true
  | (k, .int _) :: rest => isASCII k && flatASCII rest
  | (k, .string s) :: rest => isASCII k && isASCII s && flatASCII rest

/-- The members as JSON values. -/
def flatMembers (ms : List (GoString × Flat)) : List (GoString × JSON) :=
  ms.map (fun m => (m.1, m.2.toJSON))

/-- A byte that ends a number literal in an object: a comma or the closing brace. -/
def endsValue (c : Byte) : Prop := c = byte ',' ∨ c = byte '}'

/-- The token response with the given five field values, as a flat object. -/
def tokenObject (t a : GoString) (e : Int) (r s : GoString) : List (GoString × Flat) :=
  [(str "token_type", .string t), (str "access_token", .string a), (str "expires_in", .int e),
   (str "refresh_token", .string r), (str "scope", .string s)]

/-- How one invocation of the handler ends. -/
inductive HandlerEnd where
  | completes
  | panics
  | blockedOnSend (code : GoString)
  deriving DecidableEq, Repr

/-- One invocation of the handler against the `exchangeCode` channel. The channel is
unbuffered (`exchangeCode := make(chan string)`), so the send `exchangeCode <- code`
completes only while a receiver is waiting; the only receive is the one `select` of
`getCode`, which takes one value. Without a receiver the invocation stays in the send. -/
def runHandler (receiverWaiting : Bool) : List HandlerStep → HandlerEnd
  | [] => .completes
  | .panicked :: _ => .panics
  | .write _ :: rest => runHandler receiverWaiting rest
  | .send c :: rest => if receiverWaiting then runHandler false rest else .blockedOnSend c

/-- An invocation of the handler after `getCode` has left its `select` (a code was taken,
or the timeout branch): nothing receives from the channel any more. -/
def lateHandler (r : Request) : HandlerEnd := runHandler false (handler r)

/-! ## Sample inputs -/

/-- A request for `path?query`. -/
def request (path query : String) : Request := ⟨⟨str path, false, str query⟩⟩

/-- A valid configuration. -/
def sampleConfig : Config := ⟨str "1234", str "s3cret", str "8080", 60⟩

/-- The listener cannot bind its port. -/
def bindError : GoError := .new (str "listen tcp :8080: bind: address already in use")

/-- `server.Shutdown` runs into its five-second deadline. -/
def deadlineExceeded : GoError := .new (str "context deadline exceeded")

/-- A thirty-byte authorization code. -/
def code30 : GoString := str "ABCDEFGHIJKLMNOPQRSTUVWXYZ0123"

/-- The success body of the token endpoint. -/
def tokenBody : GoString :=
  str ("\x7b\"token_type\":\"Bearer\",\"access_token\":\"abc\",\"expires_in\":604800," ++
    "\"refresh_token\":\"r1\",\"scope\":\"identify\"\x7d")

/-- The error body of the token endpoint. -/
def errorBody : GoString := str "\x7b\"error\":\"invalid_grant\"\x7d"

/-- The response decoded from `tokenBody`. -/
def tokenResponse : ExchangeResponse :=
  ⟨str "Bearer", str "abc", 604800, str "r1", str "identify"⟩

/-- A run in which the redirect carries `code30`, the shutdown succeeds and the token
endpoint answers with the given status and body. -/
def sampleRun (status : Int) (body : GoString) : Env :=
  { capture := ⟨[request "/" "code=ABCDEFGHIJKLMNOPQRSTUVWXYZ0123"], .timerFired, none⟩
    exchange := tokenEndpoint status body }

/-! ## THEOREMS -/

/-! ### The handler and `getCode` -/

theorem goSlice_window (pre v rest : GoString) (hpre : pre.length = 7) (hv : v.length = 30) :
    goSlice (pre ++ v ++ rest) 7 37 = some v := by
  have hlen : 37 ≤ (pre ++ v ++ rest).length := by simp [hpre, hv]; omega
  have hd : (pre ++ v ++ rest).drop 7 = v ++ rest := by
    rw [List.append_assoc]; exact List.drop_left' hpre
  have ht : (v ++ rest).take 30 = v := List.take_left' hv
  unfold goSlice
  rw [if_pos ⟨by omega, hlen⟩, hd]
  exact congrArg some ht

/-- C1 (counterexample): the redirect `/?code=TESTCODE123` carries the `code` parameter
`TESTCODE123`, yet the handler panics on its 18-byte URL and delivers nothing, so `getCode`
runs into the timeout; and for `/?state=xyz&code=<30 bytes>` the handler delivers the
offset-shifted text `=xyz&code=ABCDEFGHIJKLMNOPQRST` and `getCode` returns it. -/
theorem getCode_code_param_counterexample :
    (Values.Get (ParseQuery (request "/" "code=TESTCODE123").URL.RawQuery).1 (str "code")
        = str "TESTCODE123" ∧
      handler (request "/" "code=TESTCODE123") = [.panicked] ∧
      getCode sampleConfig ⟨[request "/" "code=TESTCODE123"], .timerFired, none⟩
        = ([], some (.new (str "timed out waiting for exchange code")))) ∧
    (Values.Get (ParseQuery
          (request "/" "state=xyz&code=ABCDEFGHIJKLMNOPQRSTUVWXYZ0123").URL.RawQuery).1
          (str "code") = code30 ∧
      getCode sampleConfig
          ⟨[request "/" "state=xyz&code=ABCDEFGHIJKLMNOPQRSTUVWXYZ0123"], .timerFired, none⟩
        = (str "=xyz&code=ABCDEFGHIJKLMNOPQRST", none)) := by
  decide

/-- C1 (amended): for every request whose URL string is `/?code=` followed by a value `v`
of exactly 30 bytes (and then anything, such as `&state=...`), the handler sends exactly
`v` on the code channel and then writes the confirmation, and `getCode`, when this request
is the first one served and the shutdown succeeds, returns exactly `v` with a nil error. -/
theorem handler_delivers_fixed_window (r : Request) (v rest : GoString)
    (hurl : r.URL.String = str "/?code=" ++ v ++ rest) (hlen : v.length = 30) :
    handler r = [.send v, .write confirmation] ∧
    ∀ (config : Config) (more : List Request) (waitEnd : WaitEnd),
      getCode config ⟨r :: more, waitEnd, none⟩ = (v, none) := by
  have h7 : (str "/?code=").length = 7 := by decide
  have hne : r.URL.String ≠ faviconLiteral := by
    intro h
    have := congrArg List.length h
    rw [hurl] at this
    have h11 : faviconLiteral.length = 11 := by decide
    simp [h7, hlen, h11] at this
    omega
  have hh : handler r = [.send v, .write confirmation] := by
    unfold handler
    rw [if_pos hne, hurl, goSlice_window _ _ _ h7 hlen]
  refine ⟨hh, ?_⟩
  intro config more waitEnd
  have hs : sentCode (handler r) = some v := by rw [hh]; rfl
  simp [getCode, getCodeTrace, firstDelivery, hs, selectBody]

/-- The redirect `/?code=<code30>&state=xyz`. -/
theorem handler_delivers_fixed_window_witness :
    handler (request "/" "code=ABCDEFGHIJKLMNOPQRSTUVWXYZ0123&state=xyz")
      = [.send code30, .write confirmation] ∧
    ∀ (config : Config) (more : List Request) (waitEnd : WaitEnd),
      getCode config
        ⟨request "/" "code=ABCDEFGHIJKLMNOPQRSTUVWXYZ0123&state=xyz" :: more, waitEnd, none⟩
        = (code30, none) :=
  handler_delivers_fixed_window (request "/" "code=ABCDEFGHIJKLMNOPQRSTUVWXYZ0123&state=xyz")
    code30 (str "&state=xyz") (by decide) (by decide)

/-- C9 (the code at the failing input): a request for `/favicon.ico` is not the literal
`/favicon.io` the handler compares against, so the handler goes on to slice the 12-byte
URL and panics; with a query string long enough for the slice, a favicon probe puts a
value on the code channel, and `getCode` returns that value as the code. -/
theorem handler_favicon_ico_not_ignored :
    handler (request "/favicon.ico" "") = [.panicked] ∧
    handler (request "/favicon.ico" "v=0123456789012345678901234")
      = [.send (str "n.ico?v=0123456789012345678901"), .write confirmation] ∧
    getCode sampleConfig
        ⟨[request "/favicon.ico" "v=0123456789012345678901234"], .timerFired, none⟩
      = (str "n.ico?v=0123456789012345678901", none) ∧
    handler (request "/favicon.io" "") = [] := by
  decide

/-- C6: `getCode` returns a nil error exactly when some handler delivered a code and the
shutdown succeeded, and then it returns that code; a failed shutdown after a capture gives
the shutdown error and the empty string; a listener failure gives an error wrapping the
listener's error; the timer gives the timed-out error whatever the shutdown reports. -/
theorem getCode_outcomes (config : Config) (env : CaptureEnv) :
    ((getCode config env).2 = none ↔
      ((firstDelivery env.requests).1.isSome ∧ env.shutdownErr = none)) ∧
    (∀ c, (firstDelivery env.requests).1 = some c → env.shutdownErr = none →
      getCode config env = (c, none)) ∧
    (∀ c e, (firstDelivery env.requests).1 = some c → env.shutdownErr = some e →
      getCode config env
        = ([], some (.wrap (str "failed to shutdown server: " ++ e.Error) e))) ∧
    (∀ e, (firstDelivery env.requests).1 = none → env.waitEnd = .listenReturned e →
      e ≠ ErrServerClosed →
      getCode config env
        = ([], some (.wrap (str "server shutdown unexpectedly: " ++ e.Error) e))) ∧
    ((firstDelivery env.requests).1 = none → env.waitEnd = .timerFired →
      getCode config env = ([], some (.new (str "timed out waiting for exchange code")))) := by
  obtain ⟨requests, waitEnd, shutdownErr⟩ := env
  simp only [getCode, getCodeTrace, selectBody]
  refine ⟨?_, ?_, ?_, ?_, ?_⟩
  · cases hd : (firstDelivery requests).1 <;> cases shutdownErr <;> cases waitEnd <;>
      simp <;> split <;> simp
  · intro c hc hs; simp [hc, hs]
  · intro c e hc hs; simp [hc, hs, errorfW]
  · intro e hd hw hne; simp [hd, hw, hne, errorfW]
  · intro hd hw; simp [hd, hw]

/-- A favicon request, then a capture whose shutdown runs into its deadline. -/
theorem getCode_outcomes_witness :
    getCode sampleConfig
        ⟨[request "/favicon.io" "",
          request "/" "code=ABCDEFGHIJKLMNOPQRSTUVWXYZ0123"], .timerFired, some deadlineExceeded⟩
      = ([], some (.wrap (str "failed to shutdown server: " ++ deadlineExceeded.Error)
          deadlineExceeded)) :=
  (getCode_outcomes sampleConfig
    ⟨[request "/favicon.io" "",
      request "/" "code=ABCDEFGHIJKLMNOPQRSTUVWXYZ0123"], .timerFired, some deadlineExceeded⟩).2.2.1
    code30 deadlineExceeded (by decide) rfl

theorem firstDelivery_effects (rs : List Request) :
    ∀ x ∈ (firstDelivery rs).2, ∃ r steps, x = Effect.handle r steps := by
  induction rs with
  | nil => simp [firstDelivery]
  | cons r rest ih =>
    intro x hx
    unfold firstDelivery at hx
    split at hx
    · simp at hx; exact ⟨r, handler r, hx⟩
    · simp at hx
      rcases hx with hx | hx
      · exact ⟨r, handler r, hx⟩
      · exact ih x hx

theorem getLast_snoc {α : Type} (a : α) (l : List α) (x : α) :
    (a :: l ++ [x]).getLast? = some x := by
  have h : a :: l ++ [x] = (a :: l) ++ [x] := rfl
  rw [h, List.getLast?_append]
  rfl

/-- C7 (counterexample): when the listener cannot bind its port and no request is served,
`getCode` returns the listener error and the whole trace of the call is the single
`ListenAndServe`: no `server.Shutdown` precedes the return. -/
theorem getCode_shutdown_counterexample :
    getCodeTrace sampleConfig ⟨[], .listenReturned bindError, none⟩
      = (([], some (.wrap (str "server shutdown unexpectedly: " ++ bindError.Error) bindError)),
          [.listenAndServe (str ":8080")]) ∧
    Effect.shutdown 5 ∉ (getCodeTrace sampleConfig ⟨[], .listenReturned bindError, none⟩).2 := by
  decide

/-- C7 (amended): on the code-received path and on the timeout path the last effect of
`getCode` before it returns is a `server.Shutdown` with a five-second deadline; on the
listener-failed path `getCode` returns without any `server.Shutdown` call. -/
theorem getCode_shutdown_paths (config : Config) (env : CaptureEnv) :
    ((firstDelivery env.requests).1.isSome →
      (getCodeTrace config env).2.getLast? = some (.shutdown 5)) ∧
    ((firstDelivery env.requests).1 = none → env.waitEnd = .timerFired →
      (getCodeTrace config env).2.getLast? = some (.shutdown 5)) ∧
    (∀ e, (firstDelivery env.requests).1 = none → env.waitEnd = .listenReturned e →
      e ≠ ErrServerClosed → ∀ d, Effect.shutdown d ∉ (getCodeTrace config env).2) := by
  obtain ⟨requests, waitEnd, shutdownErr⟩ := env
  refine ⟨?_, ?_, ?_⟩
  · intro h
    cases hd : (firstDelivery requests).1 with
    | none => simp [hd] at h
    | some c =>
      cases shutdownErr <;>
        simp only [getCodeTrace, selectBody, hd] <;> exact getLast_snoc _ _ _
  · intro hd hw
    simp only at hd hw
    simp only [getCodeTrace, selectBody, hd, hw]
    exact getLast_snoc _ _ _
  · intro e hd hw hne d hmem
    simp only at hd hw
    simp [getCodeTrace, selectBody, hd, hw, hne] at hmem
    obtain ⟨r, steps, h⟩ := firstDelivery_effects requests _ hmem
    cases h

/-- A captured code: the trace ends with the shutdown. -/
theorem getCode_shutdown_paths_witness :
    (getCodeTrace sampleConfig
        ⟨[request "/" "code=ABCDEFGHIJKLMNOPQRSTUVWXYZ0123"], .timerFired, none⟩).2.getLast?
      = some (.shutdown 5) :=
  (getCode_shutdown_paths sampleConfig
    ⟨[request "/" "code=ABCDEFGHIJKLMNOPQRSTUVWXYZ0123"], .timerFired, none⟩).1 (by decide)

/-- C8 (counterexample): for port `8080` the listener address is `:8080`, with an empty
host, not `localhost:8080`. -/
theorem serverAddr_counterexample :
    (getCodeTrace sampleConfig ⟨[], .timerFired, none⟩).2.head?
      = some (.listenAndServe (str ":8080")) ∧
    serverAddr sampleConfig ≠ str "localhost:" ++ sampleConfig.Port := by
  decide

/-- C8 (amended): for every config, the address `getCode` gives the HTTP listener is `:`
followed by `config.Port` (an empty host), and its port is the one `getAuth` puts in
`redirect_uri`, which is `http://localhost:` followed by `config.Port`. -/
theorem serverAddr_is_port_only (config : Config) (env : CaptureEnv) (code : GoString) :
    (getCodeTrace config env).2.head? = some (.listenAndServe (byte ':' :: config.Port)) ∧
    Values.Get (authParams config code) (str "redirect_uri")
      = str "http://localhost:" ++ config.Port := by
  constructor
  · simp [getCodeTrace, serverAddr]
    rfl
  · rfl

/-! ### `AuthenticateUser` -/

/-- C4: `AuthenticateUser` is `getCode` then `getAuth`. When `getCode` fails with `e`, the
result is the zero response and an error wrapping `e` whose message is
`failed to get code: ` followed by the message of `e`, and `getAuth` is not called. When
`getCode` returns `c`, `getAuth` is called once, with `c`: its error `e` is wrapped with
the message `failed to exchange code: ` followed by the message of `e`, and without an
error its response is returned unchanged with a nil error. -/
theorem AuthenticateUser_sequence (env : Env) (config : Config) :
    (∀ c e, getCode config env.capture = (c, some e) →
      AuthenticateUserTrace env config
        = ((ExchangeResponse.zero, some (.wrap (str "failed to get code: " ++ e.Error) e)),
            [.getCode config])) ∧
    (∀ c r e, getCode config env.capture = (c, none) →
      getAuth env.exchange config c = (r, some e) →
      AuthenticateUserTrace env config
        = ((r, some (.wrap (str "failed to exchange code: " ++ e.Error) e)),
            [.getCode config, .getAuth config c])) ∧
    (∀ c r, getCode config env.capture = (c, none) →
      getAuth env.exchange config c = (r, none) →
      AuthenticateUserTrace env config = ((r, none), [.getCode config, .getAuth config c])) := by
  refine ⟨?_, ?_, ?_⟩
  · intro c e h
    simp [AuthenticateUserTrace, h, errorfW]
  · intro c r e h h2
    simp [AuthenticateUserTrace, h, h2, errorfW]
  · intro c r h h2
    simp [AuthenticateUserTrace, h, h2]


theorem upperhex_spec :
    ∀ k, k < 16 → ishex (upperhex k) = true ∧ unhex (upperhex k) = k ∧
      upperhex k ≠ byte '&' ∧ upperhex k ≠ byte '=' ∧ upperhex k ≠ byte ';' := by
  decide

theorem shouldEscape_special :
    shouldEscape (byte '&') = true ∧ shouldEscape (byte '=') = true ∧
    shouldEscape (byte ';') = true ∧ shouldEscape (byte '%') = true ∧
    shouldEscape (byte '+') = true ∧ shouldEscape (byte ' ') = true := by
  decide

theorem escapeByte_no_sep (c x : Byte) (hx : x ∈ escapeByte c) :
    x ≠ byte '&' ∧ x ≠ byte '=' ∧ x ≠ byte ';' := by
  unfold escapeByte at hx
  have hq : c.val / 16 < 16 := by have := c.isLt; omega
  have hr : c.val % 16 < 16 := by omega
  split at hx
  · simp at hx; subst hx; decide
  · split at hx
    · simp at hx
      rcases hx with hx | hx | hx
      · subst hx; decide
      · subst hx; exact (upperhex_spec _ hq).2.2
      · subst hx; exact (upperhex_spec _ hr).2.2
    · rename_i hs
      simp at hx; subst hx
      refine ⟨?_, ?_, ?_⟩ <;> intro h <;> rw [h] at hs
      · exact hs shouldEscape_special.1
      · exact hs shouldEscape_special.2.1
      · exact hs shouldEscape_special.2.2.1

theorem QueryEscape_no_sep (s : GoString) (x : Byte) (hx : x ∈ QueryEscape s) :
    x ≠ byte '&' ∧ x ≠ byte '=' ∧ x ≠ byte ';' := by
  unfold QueryEscape at hx
  rw [List.mem_flatMap] at hx
  obtain ⟨c, _, hc⟩ := hx
  exact escapeByte_no_sep c x hc

theorem QueryUnescape_plain (c : Byte) (t : GoString) (h : c ≠ byte '%') :
    QueryUnescape (c :: t) =
      match QueryUnescape t with
      | .ok u => .ok ((if c = byte '+' then byte ' ' else c) :: u)
      | .error e => .error e := by
  rw [QueryUnescape.eq_def]
  simp only [if_neg h]

theorem QueryUnescape_hex (a b : Byte) (t : GoString) (ha : ishex a = true)
    (hb : ishex b = true) :
    QueryUnescape (byte '%' :: a :: b :: t) =
      match QueryUnescape t with
      | .ok u => .ok (Fin.ofNat (unhex a * 16 + unhex b) :: u)
      | .error e => .error e := by
  rw [QueryUnescape.eq_def]
  simp only [if_true, ha, hb, and_self]

theorem QueryUnescape_escapeByte (c : Byte) (t : GoString) :
    QueryUnescape (escapeByte c ++ t) =
      match QueryUnescape t with
      | .ok u => .ok (c :: u)
      | .error e => .error e := by
  have hq : c.val / 16 < 16 := by have := c.isLt; omega
  have hr : c.val % 16 < 16 := by omega
  unfold escapeByte
  split
  · rename_i hsp
    subst hsp
    have h1 : byte '+' ≠ byte '%' := by decide
    rw [List.singleton_append, QueryUnescape_plain _ _ h1]
    simp only [if_true]
  · split
    · have hx1 := (upperhex_spec _ hq)
      have hx2 := (upperhex_spec _ hr)
      have hval : (Fin.ofNat (c.val / 16 * 16 + c.val % 16) : Byte) = c := by
        apply Fin.ext
        have := c.isLt
        simp [Fin.ofNat]
        omega
      simp only [List.cons_append, List.nil_append]
      rw [QueryUnescape_hex _ _ _ hx1.1 hx2.1, hx1.2.1, hx2.2.1, hval]
    · rename_i hsp hs
      have h1 : c ≠ byte '%' := by
        intro h; rw [h] at hs; exact hs shouldEscape_special.2.2.2.1
      have h2 : c ≠ byte '+' := by
        intro h; rw [h] at hs; exact hs shouldEscape_special.2.2.2.2.1
      rw [List.singleton_append, QueryUnescape_plain _ _ h1]
      simp only [if_neg h2]

theorem QueryUnescape_QueryEscape (s : GoString) : QueryUnescape (QueryEscape s) = .ok s := by
  induction s with
  | nil => rfl
  | cons c s ih =>
    have : QueryEscape (c :: s) = escapeByte c ++ QueryEscape s := by
      simp [QueryEscape]
    rw [this, QueryUnescape_escapeByte, ih]

theorem cut_of_not_mem (sep : Byte) (a rest : GoString) (h : sep ∉ a) :
    cut sep (a ++ sep :: rest) = (a, rest, true) := by
  induction a with
  | nil => simp [cut]
  | cons c a ih =>
    have hc : c ≠ sep := fun h2 => h (by simp [h2])
    have ha : sep ∉ a := fun h2 => h (by simp [h2])
    simp [cut, hc, ih ha]

theorem splitOn_append (sep : Byte) (a rest : GoString) (h : sep ∉ a) :
    splitOn sep (a ++ sep :: rest) = a :: splitOn sep rest := by
  induction a with
  | nil => simp [splitOn]
  | cons c a ih =>
    have hc : c ≠ sep := fun h2 => h (by simp [h2])
    have ha : sep ∉ a := fun h2 => h (by simp [h2])
    simp [splitOn, hc, ih ha]

theorem splitOn_of_not_mem (sep : Byte) (a : GoString) (h : sep ∉ a) :
    splitOn sep a = [a] := by
  induction a with
  | nil => simp [splitOn]
  | cons c a ih =>
    have hc : c ≠ sep := fun h2 => h (by simp [h2])
    have ha : sep ∉ a := fun h2 => h (by simp [h2])
    simp [splitOn, hc, ih ha]

theorem encodePair_no_amp (k v : GoString) : byte '&' ∉ encodePair k v := by
  intro h
  unfold encodePair at h
  rw [List.mem_append, List.mem_cons] at h
  rcases h with h | h | h
  · exact (QueryEscape_no_sep k _ h).1 rfl
  · revert h; decide
  · exact (QueryEscape_no_sep v _ h).1 rfl

theorem parsePair_encodePair (acc : Values × Option QueryError) (k v : GoString) :
    parsePair acc (encodePair k v) = (Values.Add acc.1 k v, acc.2) := by
  have hsemi : byte ';' ∉ encodePair k v := by
    intro h
    unfold encodePair at h
    rw [List.mem_append, List.mem_cons] at h
    rcases h with h | h | h
    · exact (QueryEscape_no_sep k _ h).2.2 rfl
    · revert h; decide
    · exact (QueryEscape_no_sep v _ h).2.2 rfl
  have hne : encodePair k v ≠ [] := by simp [encodePair]
  have hcut : cut (byte '=') (encodePair k v) = (QueryEscape k, QueryEscape v, true) :=
    cut_of_not_mem _ _ _ (fun h => (QueryEscape_no_sep k _ h).2.1 rfl)
  unfold parsePair
  rw [if_neg hsemi, if_neg hne, hcut]
  simp only [QueryUnescape_QueryEscape]

theorem authParams_entries (config : Config) (code : GoString) :
    authParams config code =
      [(str "client_id", [config.ClientID]), (str "client_secret", [config.ClientSecret]),
       (str "code", [code]), (str "grant_type", [str "authorization_code"]),
       (str "redirect_uri", [redirectURI config])] := by
  rfl

/-- C5: for every config and every code, the body of the request `getAuth` builds decodes
(`url.ParseQuery`) without error to exactly five fields, each with exactly one value:
`client_id`, `client_secret`, `code`, `grant_type = authorization_code` and
`redirect_uri = http://localhost:` followed by the port, every value unchanged. -/
theorem authRequest_body_decodes (config : Config) (code : GoString) :
    ParseQuery (authRequest config code).Body =
      ([(str "client_id", [config.ClientID]), (str "client_secret", [config.ClientSecret]),
        (str "code", [code]), (str "grant_type", [str "authorization_code"]),
        (str "redirect_uri", [str "http://localhost:" ++ config.Port])], none) := by
  have hbody : (authRequest config code).Body =
      encodePair (str "client_id") config.ClientID ++ byte '&' ::
      (encodePair (str "client_secret") config.ClientSecret ++ byte '&' ::
      (encodePair (str "code") code ++ byte '&' ::
      (encodePair (str "grant_type") (str "authorization_code") ++ byte '&' ::
        encodePair (str "redirect_uri") (redirectURI config)))) := by
    simp [authRequest, authParams_entries, Values.Encode, encodedPairs, List.intersperse]
  rw [hbody]
  unfold ParseQuery
  rw [splitOn_append _ _ _ (encodePair_no_amp _ _), splitOn_append _ _ _ (encodePair_no_amp _ _),
    splitOn_append _ _ _ (encodePair_no_amp _ _), splitOn_append _ _ _ (encodePair_no_amp _ _),
    splitOn_of_not_mem _ _ (encodePair_no_amp _ _)]
  simp only [List.foldl, parsePair_encodePair]
  rfl

/-! ### `json.Unmarshal` against what the body says -/

theorem decodeMembers_error_kept (v : ExchangeResponse) (e : GoError)
    (ms : List (GoString × JSON)) : (decodeMembers (v, some e) ms).2 = some e := by
  induction ms generalizing v with
  | nil => rfl
  | cons m ms ih =>
    obtain ⟨k, j⟩ := m
    unfold decodeMembers
    cases lookupField k with
    | none => exact ih v
    | some f => exact ih _

theorem setField_fits (v : ExchangeResponse) (f : Field) (j : JSON) :
    ((setField v f j).2 = none ↔ fits f j = true) := by
  cases j <;> cases f <;> simp [setField, fits] <;>
    (split <;> simp_all)

theorem decodeMembers_ok_iff (v : ExchangeResponse) (ms : List (GoString × JSON)) :
    (decodeMembers (v, none) ms).2 = none ↔ allFit ms = true := by
  induction ms generalizing v with
  | nil => simp [decodeMembers, allFit]
  | cons m ms ih =>
    obtain ⟨k, j⟩ := m
    unfold decodeMembers allFit
    cases hk : lookupField k with
    | none => simpa using ih v
    | some f =>
      simp only [Option.or]
      cases hs : (setField v f j).2 with
      | none =>
        have := (setField_fits v f j).mp hs
        simp [this, ih]
      | some e =>
        have hne : fits f j ≠ true := fun h => by
          have := (setField_fits v f j).mpr h
          rw [hs] at this
          cases this
        simp [decodeMembers_error_kept, hne]

theorem memberValue_cons (f : Field) (k : GoString) (j : JSON)
    (ms : List (GoString × JSON)) :
    memberValue f ((k, j) :: ms) =
      match memberValue f ms with
      | some x => some x
      | none => if lookupField k = some f ∧ j.isNull = false then some j else none := by
  rfl

theorem memberValue_fits (f : Field) (ms : List (GoString × JSON)) (x : JSON)
    (hall : allFit ms = true) (hx : memberValue f ms = some x) :
    fits f x = true ∧ x.isNull = false := by
  induction ms with
  | nil => simp [memberValue] at hx
  | cons m ms ih =>
    obtain ⟨k, j⟩ := m
    unfold allFit at hall
    simp only [Bool.and_eq_true] at hall
    rw [memberValue_cons] at hx
    cases hm : memberValue f ms with
    | some y =>
      rw [hm] at hx
      simp only [Option.some.injEq] at hx
      subst hx
      exact ih hall.2 hm
    | none =>
      rw [hm] at hx
      simp only at hx
      split at hx
      · rename_i hc
        simp only [Option.some.injEq] at hx
        subst hx
        have h1 := hall.1
        rw [hc.1] at h1
        exact ⟨h1, hc.2⟩
      · cases hx

theorem memberValue_cons_unknown (f : Field) (k : GoString) (j : JSON)
    (ms : List (GoString × JSON)) (hk : lookupField k = none) :
    memberValue f ((k, j) :: ms) = memberValue f ms := by
  rw [memberValue_cons]
  cases memberValue f ms <;> simp [hk]

theorem bodyFields_cons_unknown (v : ExchangeResponse) (k : GoString) (j : JSON)
    (ms : List (GoString × JSON)) (hk : lookupField k = none) :
    bodyFields v ((k, j) :: ms) = bodyFields v ms := by
  simp only [bodyFields, memberValue_cons_unknown _ _ _ _ hk]

theorem stringOf_fits (f : Field) (x : JSON) (d1 d2 : GoString) (hf : f ≠ .expires)
    (hfit : fits f x = true) (hn : x.isNull = false) : stringOf d1 (some x) = stringOf d2 (some x) := by
  cases x <;> simp_all [fits, stringOf, JSON.isNull]

theorem intOf_fits (x : JSON) (d1 d2 : Int)
    (hfit : fits .expires x = true) (hn : x.isNull = false) :
    intOf d1 (some x) = intOf d2 (some x) := by
  cases x <;> simp_all [fits, intOf, JSON.isNull]
  rename_i lit
  cases h : parseInt64 lit <;> simp_all

theorem setField_tokenType (v : ExchangeResponse) (f0 : Field) (j : JSON)
    (hfit : fits f0 j = true) :
    (setField v f0 j).1.TokenType =
      stringOf v.TokenType (if f0 = .tokenType ∧ j.isNull = false then some j else none) := by
  cases f0 <;> cases j <;> simp_all [setField, fits, stringOf, JSON.isNull] <;>
    (split <;> rfl)

theorem setField_accessToken (v : ExchangeResponse) (f0 : Field) (j : JSON)
    (hfit : fits f0 j = true) :
    (setField v f0 j).1.AccessToken =
      stringOf v.AccessToken (if f0 = .accessToken ∧ j.isNull = false then some j else none) := by
  cases f0 <;> cases j <;> simp_all [setField, fits, stringOf, JSON.isNull] <;>
    (split <;> rfl)

theorem setField_refreshToken (v : ExchangeResponse) (f0 : Field) (j : JSON)
    (hfit : fits f0 j = true) :
    (setField v f0 j).1.RefreshToken =
      stringOf v.RefreshToken
        (if f0 = .refreshToken ∧ j.isNull = false then some j else none) := by
  cases f0 <;> cases j <;> simp_all [setField, fits, stringOf, JSON.isNull] <;>
    (split <;> rfl)

theorem setField_scope (v : ExchangeResponse) (f0 : Field) (j : JSON)
    (hfit : fits f0 j = true) :
    (setField v f0 j).1.Scope =
      stringOf v.Scope (if f0 = .scope ∧ j.isNull = false then some j else none) := by
  cases f0 <;> cases j <;> simp_all [setField, fits, stringOf, JSON.isNull] <;>
    (split <;> rfl)

theorem setField_expires (v : ExchangeResponse) (f0 : Field) (j : JSON)
    (hfit : fits f0 j = true) :
    (setField v f0 j).1.Expires =
      intOf v.Expires (if f0 = .expires ∧ j.isNull = false then some j else none) := by
  cases f0 <;> cases j <;> simp_all [setField, fits, intOf, JSON.isNull]
  rename_i lit
  cases h : parseInt64 lit <;> simp_all

theorem bodyFields_cons_known (v : ExchangeResponse) (k : GoString) (j : JSON)
    (ms : List (GoString × JSON)) (f0 : Field) (hk : lookupField k = some f0)
    (hfit : fits f0 j = true) (hall : allFit ms = true) :
    bodyFields (setField v f0 j).1 ms = bodyFields v ((k, j) :: ms) := by
  simp only [bodyFields, memberValue_cons, hk, Option.some.injEq]
  congr 1
  · cases hm : memberValue .tokenType ms with
    | some x =>
      exact stringOf_fits .tokenType x _ _ (by decide) (memberValue_fits _ ms x hall hm).1
        (memberValue_fits _ ms x hall hm).2
    | none => exact setField_tokenType v f0 j hfit
  · cases hm : memberValue .accessToken ms with
    | some x =>
      exact stringOf_fits .accessToken x _ _ (by decide) (memberValue_fits _ ms x hall hm).1
        (memberValue_fits _ ms x hall hm).2
    | none => exact setField_accessToken v f0 j hfit
  · cases hm : memberValue .expires ms with
    | some x =>
      exact intOf_fits x _ _ (memberValue_fits _ ms x hall hm).1
        (memberValue_fits _ ms x hall hm).2
    | none => exact setField_expires v f0 j hfit
  · cases hm : memberValue .refreshToken ms with
    | some x =>
      exact stringOf_fits .refreshToken x _ _ (by decide) (memberValue_fits _ ms x hall hm).1
        (memberValue_fits _ ms x hall hm).2
    | none => exact setField_refreshToken v f0 j hfit
  · cases hm : memberValue .scope ms with
    | some x =>
      exact stringOf_fits .scope x _ _ (by decide) (memberValue_fits _ ms x hall hm).1
        (memberValue_fits _ ms x hall hm).2
    | none => exact setField_scope v f0 j hfit

theorem decodeMembers_fields (v : ExchangeResponse) (ms : List (GoString × JSON))
    (hall : allFit ms = true) : (decodeMembers (v, none) ms).1 = bodyFields v ms := by
  induction ms generalizing v with
  | nil => rfl
  | cons m ms ih =>
    obtain ⟨k, j⟩ := m
    unfold allFit at hall
    simp only [Bool.and_eq_true] at hall
    conv_lhs => unfold decodeMembers
    cases hk : lookupField k with
    | none =>
      simp only
      rw [ih v hall.2, bodyFields_cons_unknown v k j ms hk]
    | some f =>
      have hfit : fits f j = true := by simpa [hk] using hall.1
      have hs : (setField v f j).2 = none := (setField_fits v f j).mpr hfit
      simp only [hs, Option.or]
      rw [ih _ hall.2]
      exact bodyFields_cons_known v k j ms f hk hfit hall.2

/-! ### Reading back what `renderObject` writes -/

theorem scanString_cons (fuel : Nat) (c : Byte) (rest : GoString) :
    scanString (fuel + 1) (c :: rest) =
      if c = quoteByte then some ([], rest)
      else if c.val < 0x20 then none
      else if c = backslash then
        match rest with
        | [] => none
        | e :: rest2 =>
          if e = byte 'u' then
            match getu4 rest2 with
            | none => none
            | some (rr, rest3) =>
              match surrogatePair rr rest3 with
              | some (dec, rest5) => prepend (encodeRune dec) (scanString fuel rest5)
              | none => prepend (encodeRune rr) (scanString fuel rest3)
          else
            match simpleEscape e with
            | some b => prepend [b] (scanString fuel rest2)
            | none => none
      else if c.val < 0x80 then prepend [c] (scanString fuel rest)
      else if validRuneLen (c :: rest) = 0 then
        prepend (encodeRune 0xFFFD) (scanString fuel rest)
      else
        prepend ((c :: rest).take (validRuneLen (c :: rest)))
          (scanString fuel ((c :: rest).drop (validRuneLen (c :: rest)))) := by
  rfl

theorem surrogatePair_small (rr : Nat) (s : GoString) (h : rr < 0xD800) :
    surrogatePair rr s = none := by
  unfold surrogatePair
  split
  · split
    · rename_i hc
      omega
    · rfl
  · rfl

theorem getu4_control (c : Byte) (rest : GoString) :
    getu4 (byte '0' :: byte '0' :: upperhex (c.val / 16) :: upperhex (c.val % 16) :: rest)
      = some (c.val, rest) := by
  have hq : c.val / 16 < 16 := by have := c.isLt; omega
  have hr : c.val % 16 < 16 := by omega
  have h0 : ishex (byte '0') = true ∧ unhex (byte '0') = 0 := by decide
  have h1 := upperhex_spec _ hq
  have h2 := upperhex_spec _ hr
  simp only [getu4, h0.1, h1.1, h2.1, and_self, if_true, h0.2, h1.2.1, h2.2.1]
  congr 2
  omega

theorem encodeRune_ascii (c : Byte) (h : c.val < 0x80) : encodeRune c.val = [c] := by
  unfold encodeRune
  rw [if_pos h]
  congr 1
  apply Fin.ext
  have := c.isLt
  simp [Fin.ofNat]

theorem scanString_quoteChar (fuel : Nat) (c : Byte) (t : GoString) (h : c.val < 128) :
    scanString (fuel + 1) (quoteChar c ++ t) = prepend [c] (scanString fuel t) := by
  unfold quoteChar
  split
  · rename_i hc
    subst hc
    have e1 : backslash ≠ quoteByte := by decide
    have e2 : ¬ (backslash.val < 0x20) := by decide
    have e3 : quoteByte ≠ byte 'u' := by decide
    have e4 : simpleEscape quoteByte = some quoteByte := by decide
    simp only [List.cons_append, List.nil_append, scanString_cons, if_neg e1, if_neg e2,
      if_true, if_neg e3, e4]
  · split
    · rename_i _ hc
      subst hc
      have e1 : backslash ≠ quoteByte := by decide
      have e2 : ¬ (backslash.val < 0x20) := by decide
      have e3 : backslash ≠ byte 'u' := by decide
      have e4 : simpleEscape backslash = some backslash := by decide
      simp only [List.cons_append, List.nil_append, scanString_cons, if_neg e1, if_neg e2,
        if_true, if_neg e3, e4]
    · split
      · rename_i hlt
        have e1 : backslash ≠ quoteByte := by decide
        have e2 : ¬ (backslash.val < 0x20) := by decide
        have hsmall : c.val < 0xD800 := by omega
        simp only [List.cons_append, List.nil_append, scanString_cons, if_neg e1, if_neg e2,
          if_true, getu4_control, surrogatePair_small _ _ hsmall, encodeRune_ascii c h]
      · rename_i hq hb hlt
        simp only [List.cons_append, List.nil_append, scanString_cons, if_neg hq, if_neg hlt,
          if_neg hb, if_pos h]

theorem scanString_quoteChars (s rest : GoString) (fuel : Nat) (hs : isASCII s = true)
    (hf : s.length + 1 ≤ fuel) :
    scanString fuel (quoteChars s ++ quoteByte :: rest) = some (s, rest) := by
  induction s generalizing fuel with
  | nil =>
    obtain ⟨n, rfl⟩ : ∃ n, fuel = n + 1 := ⟨fuel - 1, by simp at hf; omega⟩
    simp [quoteChars, scanString_cons]
  | cons c s ih =>
    obtain ⟨n, rfl⟩ : ∃ n, fuel = n + 1 := ⟨fuel - 1, by simp at hf; omega⟩
    simp only [isASCII, List.all_cons, Bool.and_eq_true, decide_eq_true_eq] at hs
    have hq : quoteChars (c :: s) = quoteChar c ++ quoteChars s := by
      simp [quoteChars]
    rw [hq, List.append_assoc, scanString_quoteChar _ _ _ hs.1,
      ih n (by simpa [isASCII] using hs.2) (by simp at hf; omega)]
    rfl

theorem quoteChars_length (s : GoString) : s.length ≤ (quoteChars s).length := by
  induction s with
  | nil => simp [quoteChars]
  | cons c s ih =>
    have hq : quoteChars (c :: s) = quoteChar c ++ quoteChars s := by
      simp [quoteChars]
    have h1 : 1 ≤ (quoteChar c).length := by
      unfold quoteChar
      split
      · simp
      · split
        · simp
        · split <;> simp
    rw [hq, List.length_append, List.length_cons]
    omega

theorem digitByte_spec :
    ∀ d, d < 10 →
      isDigit (Fin.ofNat (48 + d) : Byte) = true ∧
      (Fin.ofNat (48 + d) : Byte).val - 48 = d ∧
      (d ≠ 0 → (Fin.ofNat (48 + d) : Byte) ≠ byte '0') ∧
      (Fin.ofNat (48 + d) : Byte) ≠ byte '-' := by
  decide

theorem digits_reverse_head (n : Nat) (hn : n ≠ 0) :
    ∃ d0 tail, (Nat.digits 10 n).reverse = d0 :: tail ∧ d0 ≠ 0 := by
  have hne : Nat.digits 10 n ≠ [] := Nat.digits_ne_nil_iff_ne_zero.mpr hn
  have hlast := Nat.getLast_digit_ne_zero 10 hn
  refine ⟨(Nat.digits 10 n).getLast hne, (Nat.digits 10 n).dropLast.reverse, ?_, hlast⟩
  conv_lhs => rw [← List.dropLast_append_getLast hne]
  simp

theorem decimal_all_digits (n : Nat) : ∀ c ∈ decimal n, isDigit c = true := by
  intro c hc
  unfold decimal at hc
  split at hc
  · simp at hc
    subst hc
    decide
  · simp only [List.mem_map, List.mem_reverse] at hc
    obtain ⟨d, hd, rfl⟩ := hc
    exact (digitByte_spec d (Nat.digits_lt_base (by norm_num) hd)).1

theorem decimal_shape (n : Nat) :
    ∃ d0 tail, decimal n = d0 :: tail ∧ d0 ≠ byte '-' ∧ (d0 = byte '0' → tail = []) := by
  unfold decimal
  split
  · exact ⟨byte '0', [], rfl, by decide, fun _ => rfl⟩
  · rename_i hn
    obtain ⟨d0, tail, hrev, hd0⟩ := digits_reverse_head n hn
    have hlt : d0 < 10 := by
      apply Nat.digits_lt_base (by norm_num : 1 < 10) (m := n)
      rw [← List.mem_reverse, hrev]
      simp
    refine ⟨Fin.ofNat (48 + d0), tail.map (fun d => (Fin.ofNat (48 + d) : Byte)), ?_, ?_, ?_⟩
    · rw [hrev]; rfl
    · exact (digitByte_spec d0 hlt).2.2.2
    · intro h
      exact absurd h ((digitByte_spec d0 hlt).2.2.1 hd0)

theorem spanDigits_append (ds : GoString) (c : Byte) (r : GoString)
    (hds : ∀ x ∈ ds, isDigit x = true) (hc : isDigit c = false) :
    spanDigits (ds ++ c :: r) = (ds, c :: r) := by
  induction ds with
  | nil => simp [spanDigits, hc]
  | cons x ds ih =>
    have hx : isDigit x = true := hds x (by simp)
    have ih2 := ih (fun y hy => hds y (by simp [hy]))
    simp [spanDigits, hx, ih2]

theorem endsValue_spec (c : Byte) (h : endsValue c) :
    isDigit c = false ∧ c ≠ byte '.' ∧ c ≠ byte 'e' ∧ c ≠ byte 'E' ∧ isSpace c = false ∧
    c ≠ byte '-' := by
  rcases h with h | h <;> subst h <;> decide

theorem scanNumber_renderInt (e : Int) (c : Byte) (r : GoString) (hc : endsValue c) :
    scanNumber (renderInt e ++ c :: r) = some (renderInt e, c :: r) := by
  obtain ⟨hdig, hdot, he1, he2, _, _⟩ := endsValue_spec c hc
  have hint : ∀ n, scanIntPart (decimal n ++ c :: r) = some (decimal n, c :: r) := by
    intro n
    obtain ⟨d0, tail, hdec, _, hzero⟩ := decimal_shape n
    have hall := decimal_all_digits n
    rw [hdec] at hall ⊢
    simp only [List.cons_append, scanIntPart]
    split
    · rename_i h0
      rw [hzero h0]
      rfl
    · have hd0 : isDigit d0 = true := hall d0 (by simp)
      have hsp := spanDigits_append tail c r (fun x hx => hall x (by simp [hx])) hdig
      simp [hd0, hsp]
  have hfrac : scanFraction (c :: r) = some ([], c :: r) := by
    simp [scanFraction, hdot]
  have hexp : scanExponent (c :: r) = some ([], c :: r) := by
    simp [scanExponent, he1, he2]
  unfold renderInt
  split
  · have hsign : scanSign (byte '-' :: decimal e.natAbs ++ c :: r)
        = ([byte '-'], decimal e.natAbs ++ c :: r) := by
      simp [scanSign]
    simp only [scanNumber, hsign, hint, hfrac, hexp]
    simp
  · obtain ⟨d0, tail, hdec, hminus, _⟩ := decimal_shape e.natAbs
    have hsign : scanSign (decimal e.natAbs ++ c :: r) = ([], decimal e.natAbs ++ c :: r) := by
      rw [hdec]
      simp [scanSign, hminus]
    simp only [scanNumber, hsign, hint, hfrac, hexp]
    simp

theorem foldl_digits (L : List Nat) (h : ∀ d ∈ L, d < 10) :
    (L.reverse.map (fun d => (Fin.ofNat (48 + d) : Byte))).foldl
      (fun n d => 10 * n + (d.val - 48)) 0 = Nat.ofDigits 10 L := by
  induction L with
  | nil => simp
  | cons d L ih =>
    have hd : d < 10 := h d (by simp)
    have ih2 := ih (fun x hx => h x (by simp [hx]))
    simp only [List.reverse_cons, List.map_append, List.foldl_append, List.map_cons,
      List.map_nil, List.foldl_cons, List.foldl_nil, ih2, Nat.ofDigits_cons]
    have := (digitByte_spec d hd).2.1
    simp only [Nat.cast_id] at *
    omega

theorem digitsValue_decimal (n : Nat) : digitsValue (decimal n) = some n := by
  obtain ⟨d0, tail, hdec, _, _⟩ := decimal_shape n
  have hall : (decimal n).all isDigit = true := by
    rw [List.all_eq_true]
    exact decimal_all_digits n
  have hval : (decimal n).foldl (fun n d => 10 * n + (d.val - 48)) 0 = n := by
    unfold decimal
    split
    · rename_i h0
      subst h0
      decide
    · rw [foldl_digits _ (fun d hd => Nat.digits_lt_base (by norm_num) hd),
        Nat.ofDigits_digits]
  rw [hdec] at hall hval ⊢
  simp only [digitsValue, hall, if_true, hval]

theorem parseInt64_renderInt (e : Int) (hlo : -(2 ^ 63 : Int) ≤ e) (hhi : e < 2 ^ 63) :
    parseInt64 (renderInt e) = some e := by
  unfold renderInt
  split
  · rename_i hneg
    have hle : e.natAbs ≤ 2 ^ 63 := by omega
    simp only [parseInt64, if_true, digitsValue_decimal, if_pos hle]
    congr 1
    omega
  · rename_i hpos
    obtain ⟨d0, tail, hdec, hminus, _⟩ := decimal_shape e.natAbs
    have hv := digitsValue_decimal e.natAbs
    rw [hdec] at hv ⊢
    have hlt : e.natAbs < 2 ^ 63 := by omega
    simp only [parseInt64, if_neg hminus, hv, if_pos hlt]
    congr 1
    omega

theorem skipSpace_cons (c : Byte) (r : GoString) (h : isSpace c = false) :
    skipSpace (c :: r) = c :: r := by
  simp [skipSpace, h]

theorem renderInt_shape (e : Int) :
    ∃ f0 tail, renderInt e = f0 :: tail ∧ (f0 = byte '-' ∨ isDigit f0 = true) := by
  unfold renderInt
  split
  · exact ⟨byte '-', decimal e.natAbs, rfl, Or.inl rfl⟩
  · obtain ⟨d0, tail, hdec, _, _⟩ := decimal_shape e.natAbs
    refine ⟨d0, tail, hdec, Or.inr ?_⟩
    have := decimal_all_digits e.natAbs
    rw [hdec] at this
    exact this d0 (by simp)

theorem numberStart_spec (c : Byte) (h : c = byte '-' ∨ isDigit c = true) :
    isSpace c = false ∧ c ≠ byte '{' ∧ c ≠ byte '[' ∧ c ≠ quoteByte ∧ c ≠ byte 't' ∧
    c ≠ byte 'f' ∧ c ≠ byte 'n' := by
  rcases h with h | h
  · subst h; decide
  · have e0 : isSpace c = false := by
      simp only [isDigit, Bool.and_eq_true, decide_eq_true_eq] at h
      simp only [isSpace, Bool.or_eq_false_iff, decide_eq_false_iff_not]
      omega
    refine ⟨e0, ?_, ?_, ?_, ?_, ?_, ?_⟩ <;> intro hc <;> rw [hc] at h <;> revert h <;> decide

theorem renderTail_shape (rest : List (GoString × Flat)) (tail : GoString) :
    ∃ c r, renderTail rest ++ tail = c :: r ∧ endsValue c := by
  cases rest with
  | nil => exact ⟨byte '}', tail, rfl, Or.inr rfl⟩
  | cons m rest => exact ⟨byte ',', _, rfl, Or.inl rfl⟩

theorem parseJSON_value_int (fuel : Nat) (e : Int) (c : Byte) (r : GoString)
    (hc : endsValue c) :
    parseJSON (fuel + 1) .value (renderInt e ++ c :: r) = some (.number (renderInt e), c :: r) := by
  have hnum := scanNumber_renderInt e c r hc
  obtain ⟨f0, tail, hshape, hstart⟩ := renderInt_shape e
  obtain ⟨h1, h2, h3, h4, h5, h6, h7⟩ := numberStart_spec f0 hstart
  rw [hshape] at hnum ⊢
  have hor : (f0 = byte '-' ∨ isDigit f0 = true) := hstart
  simp only [List.cons_append] at hnum ⊢
  simp only [parseJSON, skipSpace_cons _ _ h1, if_neg h2, if_neg h3, if_neg h4, if_neg h5,
    if_neg h6, if_neg h7, if_pos hor, hnum, Option.map]

theorem parseJSON_value_string (fuel : Nat) (s : GoString) (t : GoString)
    (hs : isASCII s = true) :
    parseJSON (fuel + 1) .value (renderString s ++ t) = some (.string s, t) := by
  have h1 : isSpace quoteByte = false := by decide
  have h2 : quoteByte ≠ byte '{' := by decide
  have h3 : quoteByte ≠ byte '[' := by decide
  have hin : renderString s ++ t = quoteByte :: (quoteChars s ++ quoteByte :: t) := by
    simp [renderString]
  have hscan := scanString_quoteChars s t ((quoteChars s ++ quoteByte :: t).length + 1) hs
    (by have := quoteChars_length s; simp; omega)
  rw [hin]
  simp only [parseJSON, skipSpace_cons _ _ h1, if_neg h2, if_neg h3, if_true, hscan]

theorem parseJSON_value_flat (fuel : Nat) (k : GoString) (v : Flat) (c : Byte) (r : GoString)
    (rest : List (GoString × Flat)) (hc : endsValue c)
    (hs : flatASCII ((k, v) :: rest) = true) :
    parseJSON (fuel + 1) .value (renderValue v ++ c :: r) = some (v.toJSON, c :: r) := by
  cases v with
  | int e => exact parseJSON_value_int fuel e c r hc
  | string s =>
    simp only [flatASCII, Bool.and_eq_true] at hs
    exact parseJSON_value_string fuel s (c :: r) hs.1.2

theorem flatASCII_key (k : GoString) (v : Flat) (rest : List (GoString × Flat))
    (hs : flatASCII ((k, v) :: rest) = true) : isASCII k = true ∧ flatASCII rest = true := by
  cases v <;> simp only [flatASCII, Bool.and_eq_true] at hs
  · exact hs
  · exact ⟨hs.1.1, hs.2⟩

theorem parseJSON_members_eq (fuel : Nat) (s : GoString) :
    parseJSON (fuel + 1) .members s =
      match skipSpace s with
      | [] => none
      | q :: r0 =>
        if q = quoteByte then
          match scanString (r0.length + 1) r0 with
          | none => none
          | some (key, r1) =>
            match skipSpace r1 with
            | [] => none
            | col :: r2 =>
              if col = byte ':' then
                match parseJSON fuel .value r2 with
                | none => none
                | some (v, r3) =>
                  match skipSpace r3 with
                  | [] => none
                  | d :: r4 =>
                    if d = byte ',' then
                      match parseJSON fuel .members r4 with
                      | some (.object kvs, r5) => some (.object ((key, v) :: kvs), r5)
                      | _ => none
                    else if d = byte '}' then some (.object [(key, v)], r4)
                    else none
              else none
        else none := by
  rfl

theorem parseJSON_object_eq (fuel : Nat) (rest : GoString) :
    parseJSON (fuel + 1) .value (byte '{' :: rest) =
      match skipSpace rest with
      | [] => none
      | d :: rest2 =>
        if d = byte '}' then some (.object [], rest2)
        else parseJSON fuel .members (d :: rest2) := by
  have h1 : isSpace (byte '{') = false := by decide
  rw [parseJSON, skipSpace_cons _ _ h1]
  simp only [if_true]

theorem parseJSON_members (ms : List (GoString × Flat)) :
    ∀ (m : GoString × Flat) (fuel : Nat) (tail : GoString),
      flatASCII (m :: ms) = true → ms.length + 2 ≤ fuel →
      parseJSON fuel .members (renderMember m ++ renderTail ms ++ tail)
        = some (.object (flatMembers (m :: ms)), tail) := by
  induction ms with
  | nil =>
    intro m fuel tail hs hf
    obtain ⟨k, v⟩ := m
    obtain ⟨f1, rfl⟩ : ∃ n, fuel = n + 1 := ⟨fuel - 1, by simp at hf; omega⟩
    obtain ⟨f2, rfl⟩ : ∃ n, f1 = n + 1 := ⟨f1 - 1, by simp at hf; omega⟩
    have hk := (flatASCII_key k v [] hs).1
    have h1 : isSpace quoteByte = false := by decide
    have h2 : isSpace (byte ':') = false := by decide
    have h3 : isSpace (byte '}') = false := by decide
    have h4 : byte '}' ≠ byte ',' := by decide
    have hin : renderMember (k, v) ++ renderTail [] ++ tail
        = quoteByte :: (quoteChars k ++ quoteByte ::
            (byte ':' :: (renderValue v ++ byte '}' :: tail))) := by
      simp [renderMember, renderString, renderTail]
    have hscan := scanString_quoteChars k (byte ':' :: (renderValue v ++ byte '}' :: tail))
      ((quoteChars k ++ quoteByte ::
        (byte ':' :: (renderValue v ++ byte '}' :: tail))).length + 1) hk
      (by have := quoteChars_length k; simp; omega)
    have hval := parseJSON_value_flat f2 k v (byte '}') tail [] (Or.inr rfl) hs
    rw [hin, parseJSON_members_eq]
    simp only [skipSpace_cons _ _ h1, if_true, hscan, skipSpace_cons _ _ h2, hval,
      skipSpace_cons _ _ h3, if_neg h4]
    rfl
  | cons m2 ms ih =>
    intro m fuel tail hs hf
    obtain ⟨k, v⟩ := m
    obtain ⟨f1, rfl⟩ : ∃ n, fuel = n + 1 := ⟨fuel - 1, by simp at hf; omega⟩
    obtain ⟨f2, rfl⟩ : ∃ n, f1 = n + 1 := ⟨f1 - 1, by simp at hf; omega⟩
    have hk := flatASCII_key k v (m2 :: ms) hs
    have h1 : isSpace quoteByte = false := by decide
    have h2 : isSpace (byte ':') = false := by decide
    have h3 : isSpace (byte ',') = false := by decide
    have hin : renderMember (k, v) ++ renderTail (m2 :: ms) ++ tail
        = quoteByte :: (quoteChars k ++ quoteByte ::
            (byte ':' :: (renderValue v ++ byte ',' ::
              (renderMember m2 ++ renderTail ms ++ tail)))) := by
      simp [renderMember, renderString, renderTail]
    have hscan := scanString_quoteChars k
      (byte ':' :: (renderValue v ++ byte ',' :: (renderMember m2 ++ renderTail ms ++ tail)))
      ((quoteChars k ++ quoteByte :: (byte ':' :: (renderValue v ++ byte ',' ::
        (renderMember m2 ++ renderTail ms ++ tail)))).length + 1) hk.1
      (by have := quoteChars_length k; simp; omega)
    have hval := parseJSON_value_flat f2 k v (byte ',')
      (renderMember m2 ++ renderTail ms ++ tail) (m2 :: ms) (Or.inl rfl) hs
    have hrec := ih m2 (f2 + 1) tail hk.2 (by simp at hf ⊢; omega)
    rw [hin, parseJSON_members_eq]
    simp only [skipSpace_cons _ _ h1, if_true, hscan, skipSpace_cons _ _ h2, hval,
      skipSpace_cons _ _ h3, hrec]
    rfl

theorem renderTail_length (ms : List (GoString × Flat)) : ms.length + 1 ≤ (renderTail ms).length := by
  induction ms with
  | nil => simp [renderTail]
  | cons m ms ih =>
    simp only [renderTail, List.length_cons, List.length_append]
    omega

theorem parseDocument_renderObject (ms : List (GoString × Flat)) (hs : flatASCII ms = true) :
    parseDocument (renderObject ms) = some (.object (flatMembers ms)) := by
  cases ms with
  | nil =>
    unfold parseDocument
    have h : parseJSON (2 * (renderObject []).length + 2) .value (renderObject [])
        = some (.object [], []) := by
      rfl
    rw [h]
    rfl
  | cons m ms =>
    obtain ⟨k, v⟩ := m
    have h1 : isSpace (byte '{') = false := by decide
    have h2 : isSpace quoteByte = false := by decide
    have h3 : quoteByte ≠ byte '}' := by decide
    have hin : renderObject ((k, v) :: ms)
        = byte '{' :: quoteByte :: (quoteChars k ++ quoteByte ::
            (byte ':' :: (renderValue v ++ renderTail ms))) := by
      simp [renderObject, renderMember, renderString]
    have hmem : quoteByte :: (quoteChars k ++ quoteByte ::
            (byte ':' :: (renderValue v ++ renderTail ms)))
          = renderMember (k, v) ++ renderTail ms ++ [] := by
      simp [renderMember, renderString]
    have hlen := renderTail_length ms
    have hrec := parseJSON_members ms (k, v)
      (2 * (renderObject ((k, v) :: ms)).length + 1) [] hs
      (by rw [hin]; simp only [List.length_cons, List.length_append]; omega)
    unfold parseDocument
    have hfuel : 2 * (renderObject ((k, v) :: ms)).length + 2
        = (2 * (renderObject ((k, v) :: ms)).length + 1) + 1 := rfl
    rw [hfuel]
    generalize 2 * (renderObject ((k, v) :: ms)).length + 1 = fuel at hrec ⊢
    rw [hin, parseJSON_object_eq]
    simp only [skipSpace_cons _ _ h2, if_neg h3]
    rw [hmem, hrec]
    rfl

theorem jsonUnmarshal_renderObject (ms : List (GoString × Flat)) (v : ExchangeResponse)
    (hs : flatASCII ms = true) :
    jsonUnmarshal (renderObject ms) v = decodeMembers (v, none) (flatMembers ms) := by
  simp only [jsonUnmarshal, parseDocument_renderObject ms hs]


/-! ### `getAuth` -/

theorem jsonUnmarshal_tokenBody :
    jsonUnmarshal tokenBody ExchangeResponse.zero = (tokenResponse, none) := by
  decide

theorem jsonUnmarshal_malformed :
    jsonUnmarshal (str "not json") ExchangeResponse.zero
      = (ExchangeResponse.zero, some jsonSyntaxError) := by
  decide

theorem getAuth_tokenBody (config : Config) (code : GoString) :
    getAuth (tokenEndpoint 200 tokenBody) config code = (tokenResponse, none) := by
  simp [getAuth, tokenEndpoint, jsonUnmarshal_tokenBody]

theorem getAuth_completed_general :
    (∀ (env : ExchangeEnv) (config : Config) (code : GoString) (resp : HTTPResponse)
        (b : GoString),
      env.newRequestErr = none →
      env.clientDo 10 (authRequest config code) = .ok resp →
      resp.Body = .ok b →
      ((getAuth env config code).2 = none ↔
        (resp.StatusCode = 200 ∧ (env.unmarshal b ExchangeResponse.zero).2 = none)) ∧
      ((getAuth env config code).2 = none →
        getAuth env config code = ((env.unmarshal b ExchangeResponse.zero).1, none)) ∧
      (∀ e, resp.StatusCode = 200 → (env.unmarshal b ExchangeResponse.zero).2 = some e →
        (getAuth env config code).2
            = some (.wrap (str "failed to parse response: " ++ e.Error) e) ∧
        ∀ (s : Int) (b2 : GoString),
          str "failed to parse response: " ++ e.Error
            ≠ str "unexpected status code: " ++ formatInt s ++ str ", response body: " ++ b2)) ∧
    (∀ (config : Config) (code : GoString),
      getAuth (tokenEndpoint 200 tokenBody) config code = (tokenResponse, none)) ∧
    (∀ (config : Config) (code : GoString),
      getAuth (tokenEndpoint 200 (str "not json")) config code
        = (ExchangeResponse.zero,
            some (.wrap (str "failed to parse response: " ++ jsonSyntaxError.Error)
              jsonSyntaxError))) := by
  refine ⟨?_, ?_, ?_⟩
  · intro env config code resp b hreq hdo hbody
    have hget : getAuth env config code =
        if resp.StatusCode = 200 then
          match env.unmarshal b ExchangeResponse.zero with
          | (decoded, some err) =>
            (decoded, some (errorfW (str "failed to parse response: ") err))
          | (decoded, none) => (decoded, none)
        else
          (ExchangeResponse.zero,
            some (.new (str "unexpected status code: " ++ formatInt resp.StatusCode ++
              str ", response body: " ++ b))) := by
      simp only [getAuth, hreq, hdo, hbody]
    rw [hget]
    rcases hu : env.unmarshal b ExchangeResponse.zero with ⟨decoded, _ | err⟩
    · by_cases hs : resp.StatusCode = 200
      · simp [hs]
      · simp [hs]
    · by_cases hs : resp.StatusCode = 200
      · simp only [hs, if_true, true_and]
        refine ⟨by simp, by simp, ?_⟩
        intro e _ he
        have he2 : err = e := by simpa using he
        subst he2
        refine ⟨rfl, ?_⟩
        intro s b2 h
        have h0 := congrArg List.head? h
        revert h0
        have h1 : str "failed to parse response: " = byte 'f' :: str "ailed to parse response: " := by
          decide
        have h2 : str "unexpected status code: " = byte 'u' :: str "nexpected status code: " := by
          decide
        rw [h1, h2]
        simp only [List.cons_append, List.head?_cons]
        decide
      · simp [hs]
  · exact getAuth_tokenBody
  · intro config code
    simp [getAuth, tokenEndpoint, jsonUnmarshal_malformed, errorfW]


theorem lookupField_tags :
    lookupField (str "token_type") = some .tokenType ∧
    lookupField (str "access_token") = some .accessToken ∧
    lookupField (str "expires_in") = some .expires ∧
    lookupField (str "refresh_token") = some .refreshToken ∧
    lookupField (str "scope") = some .scope := by
  decide

theorem jsonUnmarshal_tokenObject (t a : GoString) (e : Int) (r s : GoString)
    (ht : isASCII t = true) (ha : isASCII a = true) (hr : isASCII r = true)
    (hs : isASCII s = true) (hlo : -(2 ^ 63 : Int) ≤ e) (hhi : e < 2 ^ 63) :
    jsonUnmarshal (renderObject (tokenObject t a e r s)) ExchangeResponse.zero
      = (⟨t, a, e, r, s⟩, none) := by
  have hk : isASCII (str "token_type") = true ∧ isASCII (str "access_token") = true ∧
      isASCII (str "expires_in") = true ∧ isASCII (str "refresh_token") = true ∧
      isASCII (str "scope") = true := by decide
  have hflat : flatASCII (tokenObject t a e r s) = true := by
    simp [tokenObject, flatASCII, hk, ht, ha, hr, hs]
  rw [jsonUnmarshal_renderObject _ _ hflat]
  obtain ⟨l1, l2, l3, l4, l5⟩ := lookupField_tags
  simp only [tokenObject, flatMembers, List.map, decodeMembers, l1, l2, l3, l4, l5, setField,
    Flat.toJSON, parseInt64_renderInt e hlo hhi, Option.or, ExchangeResponse.zero]

theorem getAuth_tokenEndpoint (status : Int) (b : GoString) (config : Config)
    (code : GoString) :
    getAuth (tokenEndpoint status b) config code =
      if status = 200 then
        match jsonUnmarshal b ExchangeResponse.zero with
        | (decoded, some err) =>
          (decoded, some (errorfW (str "failed to parse response: ") err))
        | (decoded, none) => (decoded, none)
      else
        (ExchangeResponse.zero,
          some (.new (str "unexpected status code: " ++ formatInt status ++
            str ", response body: " ++ b))) := by
  simp only [getAuth, tokenEndpoint]

theorem getAuth_tokenEndpoint_err (status : Int) (b : GoString) (config : Config)
    (code : GoString) :
    (getAuth (tokenEndpoint status b) config code).2 = none ↔
      (status = 200 ∧ (jsonUnmarshal b ExchangeResponse.zero).2 = none) := by
  rw [getAuth_tokenEndpoint]
  by_cases hs : status = 200
  · rcases hu : jsonUnmarshal b ExchangeResponse.zero with ⟨decoded, _ | err⟩ <;> simp [hs]
  · simp [hs]

theorem getAuth_tokenEndpoint_ok (b : GoString) (config : Config) (code : GoString)
    (h : (jsonUnmarshal b ExchangeResponse.zero).2 = none) :
    getAuth (tokenEndpoint 200 b) config code
      = ((jsonUnmarshal b ExchangeResponse.zero).1, none) := by
  rw [getAuth_tokenEndpoint]
  rcases hu : jsonUnmarshal b ExchangeResponse.zero with ⟨decoded, _ | err⟩
  · simp
  · rw [hu] at h; cases h

theorem jsonUnmarshal_object (b : GoString) (ms : List (GoString × JSON))
    (h : parseDocument b = some (.object ms)) :
    jsonUnmarshal b ExchangeResponse.zero = decodeMembers (ExchangeResponse.zero, none) ms := by
  simp only [jsonUnmarshal, h]

theorem jsonUnmarshal_other (b : GoString) (j : JSON) (h : parseDocument b = some j)
    (hobj : ∀ ms, j ≠ .object ms) :
    jsonUnmarshal b ExchangeResponse.zero
      = (ExchangeResponse.zero, if j.isNull then none else some jsonTypeError) := by
  cases j with
  | object ms => exact absurd rfl (hobj ms)
  | null => simp only [jsonUnmarshal, h, JSON.isNull]; rfl
  | bool x => simp only [jsonUnmarshal, h, JSON.isNull]; rfl
  | number x => simp only [jsonUnmarshal, h, JSON.isNull]; rfl
  | string x => simp only [jsonUnmarshal, h, JSON.isNull]; rfl
  | array x => simp only [jsonUnmarshal, h, JSON.isNull]; rfl

theorem getAuth_standard_decoder :
    (∀ (status : Int) (b : GoString) (config : Config) (code : GoString)
        (ms : List (GoString × JSON)),
      parseDocument b = some (.object ms) →
      ((getAuth (tokenEndpoint status b) config code).2 = none ↔
        (status = 200 ∧ allFit ms = true)) ∧
      (status = 200 → allFit ms = true →
        getAuth (tokenEndpoint status b) config code
          = (bodyFields ExchangeResponse.zero ms, none))) ∧
    (∀ (b : GoString) (config : Config) (code : GoString),
      parseDocument b = none →
      getAuth (tokenEndpoint 200 b) config code
        = (ExchangeResponse.zero,
            some (.wrap (str "failed to parse response: " ++ jsonSyntaxError.Error)
              jsonSyntaxError))) ∧
    (∀ (b : GoString) (j : JSON) (config : Config) (code : GoString),
      parseDocument b = some j → (∀ ms, j ≠ .object ms) →
      ((getAuth (tokenEndpoint 200 b) config code).2 = none ↔ j.isNull = true) ∧
      (getAuth (tokenEndpoint 200 b) config code).1 = ExchangeResponse.zero) ∧
    (∀ ms : List (GoString × Flat), flatASCII ms = true →
      parseDocument (renderObject ms) = some (.object (flatMembers ms))) ∧
    (∀ (config : Config) (code : GoString) (t a : GoString) (e : Int) (r s : GoString),
      isASCII t = true → isASCII a = true → isASCII r = true → isASCII s = true →
      -(2 ^ 63 : Int) ≤ e → e < 2 ^ 63 →
      getAuth (tokenEndpoint 200 (renderObject (tokenObject t a e r s))) config code
        = (⟨t, a, e, r, s⟩, none)) := by
  refine ⟨?_, ?_, ?_, ?_, ?_⟩
  · intro status b config code ms hp
    have hj := jsonUnmarshal_object b ms hp
    constructor
    · rw [getAuth_tokenEndpoint_err, hj, decodeMembers_ok_iff]
    · intro hs hall
      subst hs
      have herr : (jsonUnmarshal b ExchangeResponse.zero).2 = none := by
        rw [hj, decodeMembers_ok_iff]; exact hall
      rw [getAuth_tokenEndpoint_ok b config code herr, hj, decodeMembers_fields _ _ hall]
  · intro b config code hp
    have hj : jsonUnmarshal b ExchangeResponse.zero
        = (ExchangeResponse.zero, some jsonSyntaxError) := by
      simp only [jsonUnmarshal, hp]
    rw [getAuth_tokenEndpoint, hj]
    simp [errorfW]
  · intro b j config code hp hobj
    have hj := jsonUnmarshal_other b j hp hobj
    rw [getAuth_tokenEndpoint_err, getAuth_tokenEndpoint, hj]
    cases hn : j.isNull <;> simp
  · exact parseDocument_renderObject
  · intro config code t a e r s ht ha hr hs hlo hhi
    have hj := jsonUnmarshal_tokenObject t a e r s ht ha hr hs hlo hhi
    rw [getAuth_tokenEndpoint_ok _ config code (by rw [hj]), hj]

theorem decimal_604800 : decimal 604800 = str "604800" := by
  have h : Nat.digits 10 604800 = [0, 0, 8, 4, 0, 6] := by norm_num
  simp only [decimal, h]
  decide

theorem renderObject_tokenResponse :
    renderObject (tokenObject (str "Bearer") (str "abc") 604800 (str "r1") (str "identify"))
      = tokenBody := by
  have hi : renderInt 604800 = str "604800" := by
    simp only [renderInt]
    rw [if_neg (by decide)]
    exact decimal_604800
  simp only [renderObject, tokenObject, renderMember, renderTail, renderValue, hi]
  decide

/-- C2: for a completed token-endpoint response with status `s` and body `b`, `getAuth`
returns a nil error exactly when `s = 200` and `json.Unmarshal` of `b` into the zero
`ExchangeResponse` reports no error, and the result is then the decoded struct; a 200 body
that does not decode gives the error `failed to parse response: ...` wrapping the decoder's
error, whose message differs from the message of every status-failure error.
With the standard decoder, for every body that is a JSON object: the error is nil exactly
when the status is 200 and every member that names a field fits it, and the result's
`Type`, `AccessToken`, `Expires`, `RefreshToken` and `Scope` are then the object's
`token_type`, `access_token`, `expires_in`, `refresh_token` and `scope` (`bodyFields`); a
body that is not JSON gives the parse-failure error; a body that is another JSON value is
accepted only when it is `null`. Every flat object written by `renderObject` is read back
member for member, so for all ASCII `t`, `a`, `r`, `s` and every `e` in the range of `int`
the 200 body with these five fields yields exactly `(t, a, e, r, s)` and no error; the body
`tokenBody`, which is such an object, yields (Bearer, abc, 604800, r1, identify), the body
`not json` the parse-failure error. -/
theorem getAuth_completed_response :
    (∀ (env : ExchangeEnv) (config : Config) (code : GoString) (resp : HTTPResponse)
        (b : GoString),
      env.newRequestErr = none →
      env.clientDo 10 (authRequest config code) = .ok resp →
      resp.Body = .ok b →
      ((getAuth env config code).2 = none ↔
        (resp.StatusCode = 200 ∧ (env.unmarshal b ExchangeResponse.zero).2 = none)) ∧
      ((getAuth env config code).2 = none →
        getAuth env config code = ((env.unmarshal b ExchangeResponse.zero).1, none)) ∧
      (∀ e, resp.StatusCode = 200 → (env.unmarshal b ExchangeResponse.zero).2 = some e →
        (getAuth env config code).2
            = some (.wrap (str "failed to parse response: " ++ e.Error) e) ∧
        ∀ (s : Int) (b2 : GoString),
          str "failed to parse response: " ++ e.Error
            ≠ str "unexpected status code: " ++ formatInt s ++ str ", response body: " ++ b2)) ∧
    (∀ (config : Config) (code : GoString),
      getAuth (tokenEndpoint 200 tokenBody) config code = (tokenResponse, none)) ∧
    (∀ (config : Config) (code : GoString),
      getAuth (tokenEndpoint 200 (str "not json")) config code
        = (ExchangeResponse.zero,
            some (.wrap (str "failed to parse response: " ++ jsonSyntaxError.Error)
              jsonSyntaxError))) ∧
    (∀ (status : Int) (b : GoString) (config : Config) (code : GoString)
        (ms : List (GoString × JSON)),
      parseDocument b = some (.object ms) →
      ((getAuth (tokenEndpoint status b) config code).2 = none ↔
        (status = 200 ∧ allFit ms = true)) ∧
      (status = 200 → allFit ms = true →
        getAuth (tokenEndpoint status b) config code
          = (bodyFields ExchangeResponse.zero ms, none))) ∧
    (∀ (b : GoString) (config : Config) (code : GoString),
      parseDocument b = none →
      getAuth (tokenEndpoint 200 b) config code
        = (ExchangeResponse.zero,
            some (.wrap (str "failed to parse response: " ++ jsonSyntaxError.Error)
              jsonSyntaxError))) ∧
    (∀ (b : GoString) (j : JSON) (config : Config) (code : GoString),
      parseDocument b = some j → (∀ ms, j ≠ .object ms) →
      ((getAuth (tokenEndpoint 200 b) config code).2 = none ↔ j.isNull = true) ∧
      (getAuth (tokenEndpoint 200 b) config code).1 = ExchangeResponse.zero) ∧
    (∀ ms : List (GoString × Flat), flatASCII ms = true →
      parseDocument (renderObject ms) = some (.object (flatMembers ms))) ∧
    (∀ (config : Config) (code : GoString) (t a : GoString) (e : Int) (r s : GoString),
      isASCII t = true → isASCII a = true → isASCII r = true → isASCII s = true →
      -(2 ^ 63 : Int) ≤ e → e < 2 ^ 63 →
      getAuth (tokenEndpoint 200 (renderObject (tokenObject t a e r s))) config code
        = (⟨t, a, e, r, s⟩, none)) ∧
    renderObject (tokenObject (str "Bearer") (str "abc") 604800 (str "r1") (str "identify"))
      = tokenBody := by
  obtain ⟨g1, g2, g3⟩ := getAuth_completed_general
  obtain ⟨d1, d2, d3, d4, d5⟩ := getAuth_standard_decoder
  exact ⟨g1, g2, g3, d1, d2, d3, d4, d5, renderObject_tokenResponse⟩

/-- Status 200 with the body `tokenBody`, and with the five fields of `tokenResponse`
written out by `renderObject`. -/
theorem getAuth_completed_response_witness :
    ((getAuth (tokenEndpoint 200 tokenBody) sampleConfig code30).2 = none ↔
      ((200 : Int) = 200 ∧ (jsonUnmarshal tokenBody ExchangeResponse.zero).2 = none)) ∧
    getAuth (tokenEndpoint 200
        (renderObject (tokenObject (str "Bearer") (str "abc") 604800 (str "r1")
          (str "identify")))) sampleConfig code30
      = (tokenResponse, none) :=
  ⟨(getAuth_completed_response.1 (tokenEndpoint 200 tokenBody) sampleConfig code30
      ⟨200, .ok tokenBody⟩ tokenBody rfl rfl rfl).1,
    getAuth_completed_response.2.2.2.2.2.2.2.1 sampleConfig code30 (str "Bearer") (str "abc")
      604800 (str "r1") (str "identify") (by decide) (by decide) (by decide) (by decide)
      (by decide) (by decide)⟩

/-- C3: for a completed response with a status other than 200 and any body `b`, `getAuth`
returns the zero `ExchangeResponse` and the error whose message is
`unexpected status code: <status>, response body: <b>`; the message contains the decimal
status and the raw body, and the result does not depend on the JSON decoder, so the body
is not parsed. -/
theorem getAuth_non200 (env : ExchangeEnv) (config : Config) (code : GoString)
    (resp : HTTPResponse) (b : GoString)
    (hreq : env.newRequestErr = none)
    (hdo : env.clientDo 10 (authRequest config code) = .ok resp)
    (hbody : resp.Body = .ok b)
    (hs : resp.StatusCode ≠ 200) :
    ∃ err, getAuth env config code = (ExchangeResponse.zero, some err) ∧
      err.Error = str "unexpected status code: " ++ formatInt resp.StatusCode ++
        str ", response body: " ++ b ∧
      formatInt resp.StatusCode <:+: err.Error ∧
      b <:+: err.Error ∧
      ∀ u, getAuth { env with unmarshal := u } config code = getAuth env config code := by
  refine ⟨.new (str "unexpected status code: " ++ formatInt resp.StatusCode ++
    str ", response body: " ++ b), ?_, rfl, ?_, ?_, ?_⟩
  · simp only [getAuth, hreq, hdo, hbody, if_neg hs]
  · exact ⟨str "unexpected status code: ", str ", response body: " ++ b, by
      simp [GoError.Error]⟩
  · exact ⟨str "unexpected status code: " ++ formatInt resp.StatusCode ++
      str ", response body: ", [], by simp [GoError.Error]⟩
  · intro u
    simp only [getAuth, hreq, hdo, hbody, if_neg hs]

/-- Status 400 with the body `errorBody`: the message contains `400` and the body; and with
the well-formed token body the result is still the zero response. -/
theorem getAuth_non200_witness :
    (∃ err, getAuth (tokenEndpoint 400 errorBody) sampleConfig code30
        = (ExchangeResponse.zero, some err) ∧
      str "400" <:+: err.Error ∧ errorBody <:+: err.Error) ∧
    (∃ err, getAuth (tokenEndpoint 400 tokenBody) sampleConfig code30
        = (ExchangeResponse.zero, some err)) := by
  obtain ⟨err, h1, _, h3, h4, _⟩ :=
    getAuth_non200 (tokenEndpoint 400 errorBody) sampleConfig code30
      ⟨400, .ok errorBody⟩ errorBody rfl rfl rfl (by decide)
  obtain ⟨err2, k1, _⟩ :=
    getAuth_non200 (tokenEndpoint 400 tokenBody) sampleConfig code30
      ⟨400, .ok tokenBody⟩ tokenBody rfl rfl rfl (by decide)
  exact ⟨⟨err, h1, h3, h4⟩, ⟨err2, k1⟩⟩

/-- The end-to-end run: redirect with `code30`, token endpoint answering 200. -/
theorem AuthenticateUser_sequence_witness :
    AuthenticateUserTrace (sampleRun 200 tokenBody) sampleConfig
      = ((tokenResponse, none), [.getCode sampleConfig, .getAuth sampleConfig code30]) :=
  (AuthenticateUser_sequence (sampleRun 200 tokenBody) sampleConfig).2.2 code30 tokenResponse
    (by decide) (getAuth_tokenBody sampleConfig code30)

/-! ### Late requests -/

theorem lateHandler_never_completes (r : Request) (h : r.URL.String ≠ faviconLiteral) :
    lateHandler r = .panics ∨ ∃ c, lateHandler r = .blockedOnSend c := by
  unfold lateHandler handler
  rw [if_pos h]
  cases goSlice r.URL.String 7 37 with
  | none => exact Or.inl rfl
  | some c => exact Or.inr ⟨c, rfl⟩

/-- C10 (the code at the failing input): a second redirect `/?code=<30 bytes>` that
reaches the handler after `getCode` has left its `select` stays in the send on the
unbuffered channel, and a late `/?code=TESTCODE123` panics; neither invocation completes.
(While the `select` is still waiting, the same 30-byte redirect completes.) -/
theorem lateHandler_blocks_or_panics :
    lateHandler (request "/" "code=ABCDEFGHIJKLMNOPQRSTUVWXYZ0123")
      = .blockedOnSend code30 ∧
    lateHandler (request "/" "code=TESTCODE123") = .panics ∧
    runHandler true (handler (request "/" "code=ABCDEFGHIJKLMNOPQRSTUVWXYZ0123"))
      = .completes := by
  decide

end OAuthDiscord
